import Mathlib

/-!
Verification of the remote-tree reconciliation engine (dptrp1manager/tree.py).

The Python module builds an in-memory tree of `DPNode` objects (with the
`anytree` library supplying parent/child wiring and a name-based path
resolver) from a flat list of records.  This file gives a shallow embedding:
nodes live in an arena (a list, index = creation order, which is exactly
anytree's child ordering), mutation is functional update of the arena, and
exceptions are explicit error values threaded next to the state (Python
attaches a node to its parent before parsing its fields, so a parse failure
leaves a partially initialised node in the tree; the embedding mirrors that).
-/

/-- Result of Python's `datetime.strptime(s, "%Y-%m-%dT%H:%M:%SZ")`. -/
structure PyDateTime where
  year : Nat
  month : Nat
  day : Nat
  hour : Nat
  minute : Nat
  second : Nat
deriving DecidableEq, Repr

/-- The Python exceptions that the module can raise. -/
inductive PyErr where
  /-- `ValueError`, from `strptime` or `int()` on malformed input. -/
  | valueError
  /-- `anytree.resolver.ResolverError` (root name mismatch or empty root part). -/
  | resolverError
  /-- `anytree.resolver.RootResolverError` (`".."` at a root). -/
  | rootResolverError
  /-- `anytree.resolver.ChildResolverError` (missing child; caught by the module). -/
  | childResolverError
  /-- `AttributeError` (`self._tree` is `None` before the first rebuild). -/
  | attributeError
deriving DecidableEq, Repr

deriving instance DecidableEq for Except

/-! ## Python string primitives used by the module -/

/-- `str.split(sep)` for a one-character separator, on the character list. -/
def splitChar (c : Char) : List Char → List (List Char)
  | [] => [[]]
  | x :: xs =>
    if x = c then [] :: splitChar c xs
    else
      match splitChar c xs with
      | [] => [[x]]
      | g :: gs => (x :: g) :: gs

/-- Inverse of `splitChar`: interleave the separator between the groups. -/
def joinChar (c : Char) : List (List Char) → List Char
  | [] => []
  | [g] => g
  | g :: gs => g ++ c :: joinChar c gs

/-- Python `path.split("/")`. -/
def pySplit (s : String) : List String :=
  (splitChar '/' s.toList).map String.mk

/-- Join segments with `"/"` (inverse of `pySplit`). -/
def joinSegs : List String → String
  | [] => ""
  | [g] => g
  | g :: gs => g ++ "/" ++ joinSegs gs

/-- Python `path.rsplit("/", 1)[0]`: the string up to the last `"/"`,
or the whole string when it contains no `"/"`. -/
def pyRsplitParent (s : String) : String :=
  match splitChar '/' s.toList with
  | [] => s
  | [_] => s
  | g :: gs => String.mk (joinChar '/' ((g :: gs).dropLast))

/-- The whitespace characters stripped by Python's `int(str)` (ASCII subset). -/
def isPyWhitespace (c : Char) : Bool :=
  c = ' ' || c = '\t' || c = '\n' || c = '\r' || c = Char.ofNat 11 || c = Char.ofNat 12

/-- Decimal value of an ASCII digit. -/
def digitVal (c : Char) : Nat := c.toNat - 48

/-- Python integer-literal digit part after the first digit:
`digit (["_"] digit)*`, consuming the whole list. -/
def digitsRest (acc : Nat) : List Char → Option Nat
  | [] => some acc
  | '_' :: c :: rest =>
    if c.isDigit then digitsRest (acc * 10 + digitVal c) rest else none
  | c :: rest =>
    if c.isDigit then digitsRest (acc * 10 + digitVal c) rest else none

/-- Python integer-literal digit part: at least one digit, underscores
allowed between digits, consuming the whole list. -/
def digitsPart : List Char → Option Nat
  | [] => none
  | c :: rest => if c.isDigit then digitsRest (digitVal c) rest else none

/-- Python `int(s)` for base 10: strip whitespace, optional sign, digits
(with optional single underscores between digits).  `none` models a raised
`ValueError`. -/
def pyInt (s : String) : Option Int :=
  let cs := ((s.toList.dropWhile isPyWhitespace).reverse.dropWhile isPyWhitespace).reverse
  match cs with
  | '+' :: rest => (digitsPart rest).map Int.ofNat
  | '-' :: rest => (digitsPart rest).map (fun n => -(Int.ofNat n))
  | rest => (digitsPart rest).map Int.ofNat

/-! ## `strptime` for the fixed format `"%Y-%m-%dT%H:%M:%SZ"`

CPython's `_strptime` matches each directive with a regex (`%Y` is exactly
four digits, the other fields allow one or two digits with the ranges below)
and then validates the result through the `datetime` constructor. -/

/-- `%Y`: exactly four digits. -/
def parse4Digits : List Char → Option (Nat × List Char)
  | a :: b :: c :: d :: rest =>
    if a.isDigit && b.isDigit && c.isDigit && d.isDigit then
      some (digitVal a * 1000 + digitVal b * 100 + digitVal c * 10 + digitVal d, rest)
    else none
  | _ => none

/-- `%m`: regex `1[0-2]|0[1-9]|[1-9]`, alternatives tried in order. -/
def parseMonth : List Char → Option (Nat × List Char)
  | a :: b :: rest =>
    if a = '1' && ('0' ≤ b && b ≤ '2') then some (10 + digitVal b, rest)
    else if a = '0' && ('1' ≤ b && b ≤ '9') then some (digitVal b, rest)
    else if '1' ≤ a && a ≤ '9' then some (digitVal a, b :: rest)
    else none
  | [a] => if '1' ≤ a && a ≤ '9' then some (digitVal a, []) else none
  | [] => none

/-- `%d`: regex `3[01]|[12]\d|0[1-9]|[1-9]`. -/
def parseDay : List Char → Option (Nat × List Char)
  | a :: b :: rest =>
    if a = '3' && (b = '0' || b = '1') then some (30 + digitVal b, rest)
    else if (a = '1' || a = '2') && b.isDigit then some (digitVal a * 10 + digitVal b, rest)
    else if a = '0' && ('1' ≤ b && b ≤ '9') then some (digitVal b, rest)
    else if '1' ≤ a && a ≤ '9' then some (digitVal a, b :: rest)
    else none
  | [a] => if '1' ≤ a && a ≤ '9' then some (digitVal a, []) else none
  | [] => none

/-- `%H`: regex `2[0-3]|[0-1]\d|\d`. -/
def parseHour : List Char → Option (Nat × List Char)
  | a :: b :: rest =>
    if a = '2' && ('0' ≤ b && b ≤ '3') then some (20 + digitVal b, rest)
    else if (a = '0' || a = '1') && b.isDigit then some (digitVal a * 10 + digitVal b, rest)
    else if a.isDigit then some (digitVal a, b :: rest)
    else none
  | [a] => if a.isDigit then some (digitVal a, []) else none
  | [] => none

/-- `%M`: regex `[0-5]\d|\d`. -/
def parseMinute : List Char → Option (Nat × List Char)
  | a :: b :: rest =>
    if ('0' ≤ a && a ≤ '5') && b.isDigit then some (digitVal a * 10 + digitVal b, rest)
    else if a.isDigit then some (digitVal a, b :: rest)
    else none
  | [a] => if a.isDigit then some (digitVal a, []) else none
  | [] => none

/-- `%S`: regex `6[0-1]|[0-5]\d|\d`. -/
def parseSecond : List Char → Option (Nat × List Char)
  | a :: b :: rest =>
    if a = '6' && (b = '0' || b = '1') then some (60 + digitVal b, rest)
    else if ('0' ≤ a && a ≤ '5') && b.isDigit then some (digitVal a * 10 + digitVal b, rest)
    else if a.isDigit then some (digitVal a, b :: rest)
    else none
  | [a] => if a.isDigit then some (digitVal a, []) else none
  | [] => none

/-- Consume one expected literal character. -/
def expectChar (c : Char) : List Char → Option (List Char)
  | [] => none
  | x :: rest => if x = c then some rest else none

/-- Day count of a month, Gregorian rules (as validated by `datetime`). -/
def daysInMonth (year month : Nat) : Nat :=
  if month = 2 then
    if year % 4 = 0 && (year % 100 ≠ 0 || year % 400 = 0) then 29 else 28
  else if month = 4 || month = 6 || month = 9 || month = 11 then 30
  else 31

/-- `datetime.strptime(s, "%Y-%m-%dT%H:%M:%SZ")`; `none` models `ValueError`
(regex mismatch, unconverted trailing data, or `datetime` range validation). -/
def pyStrptime (s : String) : Option PyDateTime := do
  let cs := s.toList
  let (y, cs) ← parse4Digits cs
  let cs ← expectChar '-' cs
  let (mo, cs) ← parseMonth cs
  let cs ← expectChar '-' cs
  let (d, cs) ← parseDay cs
  let cs ← expectChar 'T' cs
  let (h, cs) ← parseHour cs
  let cs ← expectChar ':' cs
  let (mi, cs) ← parseMinute cs
  let cs ← expectChar ':' cs
  let (sec, cs) ← parseSecond cs
  let cs ← expectChar 'Z' cs
  match cs with
  | [] =>
    if 1 ≤ y && 1 ≤ d && d ≤ daysInMonth y mo && sec ≤ 59 then
      some ⟨y, mo, d, h, mi, sec⟩
    else none
  | _ => none

/-! ## Node model (`DPNode`, `DPFolderNode`, `DPDocumentNode`)

The three Python classes are embedded as one structure with a `kind` tag
recording the class; fields of the other variants stay at their `none`
defaults (they model Python attributes that were never assigned). -/

/-- Which Python class a node object belongs to. -/
inductive EntryKind where
  | base
  | folder
  | document
deriving DecidableEq, Repr

/-- A Python value that can be `None`, a string, or a bool
(the shapes `is_new` takes at the call sites). -/
inductive PyVal where
  | vnone
  | vstr (s : String)
  | vbool (b : Bool)
deriving DecidableEq, Repr

/-- Python truthiness `bool(v)` for the values in `PyVal`.
Note `bool(s)` for a string is `s != ""`, so `bool("false") = True`. -/
def pyTruthy : PyVal → Bool
  | .vnone => false
  | .vstr s => s ≠ ""
  | .vbool b => b

/-- Lift an optional string (a JSON `string | null` field) to `PyVal`. -/
def strOrNone : Option String → PyVal
  | none => .vnone
  | some s => .vstr s

/-- The attribute set of a node object. -/
structure DPNode where
  kind : EntryKind
  entry_path : String
  entry_name : Option String
  entry_type : Option String
  entry_id : Option String
  created_date : Option PyDateTime := none
  is_new : Option Bool := none
  document_source : Option String := none
  parent_folder_id : Option String := none
  author : Option String := none
  document_type : Option String := none
  file_revision : Option String := none
  mime_type : Option String := none
  modified_date : Option PyDateTime := none
  title : Option String := none
  current_page : Option Int := none
  file_size : Option Int := none
  total_page : Option Int := none
deriving DecidableEq, Repr

/-- `DPNode.todatetime`: parse an optional date string; `None` stays absent,
a present string must match the fixed format or a `ValueError` is raised. -/
def todatetime : Option String → Except PyErr (Option PyDateTime)
  | none => .ok none
  | some s =>
    match pyStrptime s with
    | some d => .ok (some d)
    | none => .error .valueError

/-- Python `int(x)` on an optional numeric string: `None` stays absent,
a present string must parse as an integer. -/
def pyIntField : Option String → Except PyErr (Option Int)
  | none => .ok none
  | some s =>
    match pyInt s with
    | some n => .ok (some n)
    | none => .error .valueError

/-- `DPNode.__init__` (minus the `self.parent = parent` attachment, which the
tree layer performs): sets path/name/type/id, parses `created_date`, then
coerces `is_new` with `bool(...)` unless it is `None`.  On a date parse
failure the partially initialised attribute set is returned together with
the error, because in Python the object is already attached to its parent. -/
def DPNode_init (kind : EntryKind) (entry_path : String)
    (entry_name entry_type entry_id : Option String)
    (created_date : Option String) (is_new : PyVal) : DPNode × Option PyErr :=
  let n0 : DPNode :=
    { kind, entry_path, entry_name, entry_type, entry_id }
  match todatetime created_date with
  | .error e => (n0, some e)
  | .ok cd =>
    ({ n0 with
        created_date := cd
        is_new := match is_new with
          | .vnone => none
          | v => some (pyTruthy v) },
      none)

/-- `DPFolderNode.__init__`: base init, then the two folder fields. -/
def DPFolderNode_init (entry_path : String)
    (entry_name entry_type entry_id : Option String)
    (created_date : Option String) (is_new : PyVal)
    (document_source parent_folder_id : Option String) : DPNode × Option PyErr :=
  match DPNode_init .folder entry_path entry_name entry_type entry_id created_date is_new with
  | (n, some e) => (n, some e)
  | (n, none) => ({ n with document_source, parent_folder_id }, none)

/-- `DPDocumentNode.__init__`: base init, plain string fields, then the
fallible parses in source order (`modified_date`, `current_page`,
`file_size`, `total_page`); a failure keeps everything set so far. -/
def DPDocumentNode_init (entry_path : String)
    (entry_name entry_type entry_id : Option String)
    (created_date : Option String) (is_new : PyVal)
    (author current_page document_type file_revision file_size mime_type
      modified_date title total_page : Option String) : DPNode × Option PyErr :=
  match DPNode_init .document entry_path entry_name entry_type entry_id created_date is_new with
  | (n, some e) => (n, some e)
  | (n0, none) =>
    let n1 := { n0 with author, document_type, file_revision, mime_type }
    match todatetime modified_date with
    | .error e => (n1, some e)
    | .ok md =>
      let n2 := { n1 with modified_date := md, title }
      match pyIntField current_page with
      | .error e => (n2, some e)
      | .ok cp =>
        let n3 := { n2 with current_page := cp }
        match pyIntField file_size with
        | .error e => (n3, some e)
        | .ok fs =>
          let n4 := { n3 with file_size := fs }
          match pyIntField total_page with
          | .error e => (n4, some e)
          | .ok tp => ({ n4 with total_page := tp }, none)

/-! ## Input records

One JSON entry as consumed by `rebuild_tree`.  `entry_path` is always used
as a string by the module; the other fields may be JSON `null`. -/

structure Record where
  entry_path : String := ""
  entry_name : Option String := none
  entry_type : Option String := none
  entry_id : Option String := none
  created_date : Option String := none
  is_new : Option String := none
  document_source : Option String := none
  parent_folder_id : Option String := none
  author : Option String := none
  current_page : Option String := none
  document_type : Option String := none
  file_revision : Option String := none
  file_size : Option String := none
  mime_type : Option String := none
  modified_date : Option String := none
  title : Option String := none
  total_page : Option String := none
deriving DecidableEq, Repr

/-- The `DPFolderNode(...)` call in `_create_update_node` (folder branch). -/
def mkFolderFromRecord (d : Record) : DPNode × Option PyErr :=
  DPFolderNode_init d.entry_path d.entry_name d.entry_type d.entry_id
    d.created_date (strOrNone d.is_new) d.document_source d.parent_folder_id

/-- The `DPDocumentNode(...)` call in `_create_update_node` (document branch). -/
def mkDocFromRecord (d : Record) : DPNode × Option PyErr :=
  DPDocumentNode_init d.entry_path d.entry_name d.entry_type d.entry_id
    d.created_date (strOrNone d.is_new) d.author d.current_page
    d.document_type d.file_revision d.file_size d.mime_type
    d.modified_date d.title d.total_page

/-- The `DPFolderNode(...)` call in `_create_path`: an empty placeholder
(all data arguments `None`); its construction cannot fail. -/
def placeholderNode (curpath : String) : DPNode :=
  (DPFolderNode_init curpath none none none none .vnone none none).1

/-! ## The tree arena and the `anytree` resolver

`anytree.NodeMixin` keeps children in attachment order; nodes here are
stored in creation order and never detached, so a node's children are the
later nodes whose `parentIdx` points at it, in index order.  The resolver
(`anytree.resolver.Resolver("entry_name")`) walks `/`-separated parts from
the root, matching each part against `str(child.entry_name)` — note
`str(None) = "None"`. -/

/-- One arena slot: the node's data plus its parent link
(`None` for a root, including nodes attached with `parent=None`). -/
structure TreeNode where
  parentIdx : Option Nat
  data : DPNode
deriving DecidableEq, Repr

/-- The node arena; index 0 is the tree root created by `_create_tree_root`. -/
structure RTree where
  nodes : List TreeNode
deriving DecidableEq, Repr

/-- Append a freshly constructed node attached under `parentIdx`
(`self.parent = parent` in `DPNode.__init__`). -/
def RTree.addNode (t : RTree) (parentIdx : Option Nat) (d : DPNode) : RTree :=
  ⟨t.nodes ++ [⟨parentIdx, d⟩]⟩

/-- Update the node at an index in place (attribute assignment in Python). -/
def modifyAt (i : Nat) (f : TreeNode → TreeNode) : List TreeNode → List TreeNode
  | [] => []
  | x :: xs =>
    match i with
    | 0 => f x :: xs
    | j + 1 => x :: modifyAt j f xs

/-- In-place update of the data of node `i`. -/
def RTree.updateNode (t : RTree) (i : Nat) (f : DPNode → DPNode) : RTree :=
  ⟨modifyAt i (fun n => { n with data := f n.data }) t.nodes⟩

/-- The data of node `i`, if the index is in range. -/
def RTree.dataAt? (t : RTree) (i : Nat) : Option DPNode :=
  (t.nodes[i]?).map (·.data)

/-- `anytree`'s `_getattr` stringification of the name attribute:
`str(getattr(child, "entry_name"))`. -/
def nameStr : Option String → String
  | none => "None"
  | some s => s

/-- First child of node `parent` whose stringified name equals `part`
(children scanned in attachment = index order).  `idx` is the index of the
head of `rest` in the arena. -/
def findChildAux (parent : Nat) (part : String) : List TreeNode → Nat → Option Nat
  | [], _ => none
  | n :: rest, idx =>
    if n.parentIdx = some parent && nameStr n.data.entry_name = part then some idx
    else findChildAux parent part rest (idx + 1)

/-- `Resolver.__get`: resolve one path part to a child of `parent`. -/
def findChild (t : RTree) (parent : Nat) (part : String) : Option Nat :=
  findChildAux parent part t.nodes 0

/-- The part-walking loop of `Resolver.get`: `".."` moves to the parent
(raising `RootResolverError` at a root), `""` and `"."` are skipped, any
other part must resolve to a child (else `ChildResolverError`). -/
def resolveParts (t : RTree) : Nat → List String → Except PyErr Nat
  | i, [] => .ok i
  | i, part :: rest =>
    if part = ".." then
      match (t.nodes[i]?).bind (·.parentIdx) with
      | none => .error .rootResolverError
      | some p => resolveParts t p rest
    else if part = "" || part = "." then resolveParts t i rest
    else
      match findChild t i part with
      | none => .error .childResolverError
      | some j => resolveParts t j rest

/-- `Resolver.get(tree.root, "/" + path)`.  The leading separator selects
the root (index 0); the first part must be nonempty and equal the root's
stringified name (else `ResolverError`), and the remaining parts are
walked. -/
def resolverGet (t : RTree) (path : String) : Except PyErr Nat :=
  match pySplit path with
  | [] => .error .resolverError
  | first :: rest =>
    if first = "" then .error .resolverError
    else
      match t.dataAt? 0 with
      | none => .error .resolverError
      | some root =>
        if nameStr root.entry_name = first then resolveParts t 0 rest
        else .error .resolverError

/-- `RemoteTree.get_node_by_path` on a built tree: run the resolver and
catch exactly `ChildResolverError`, turning it into `None`; every other
exception propagates. -/
def getNodeByPathT (t : RTree) (path : String) : Except PyErr (Option Nat) :=
  match resolverGet t path with
  | .ok i => .ok (some i)
  | .error .childResolverError => .ok none
  | .error e => .error e

/-- The `RemoteTree` instance state: `self._tree` (and `self._resolver`),
which are `None` until the first `rebuild_tree` call. -/
abbrev RemoteTree := Option RTree

/-- `RemoteTree.get_node_by_path`: before any rebuild `self._tree` is
`None`, so `self._tree.root` raises `AttributeError` (uncaught — the
`except` clause only covers `ChildResolverError`). -/
def get_node_by_path (s : RemoteTree) (path : String) : Except PyErr (Option Nat) :=
  match s with
  | none => .error .attributeError
  | some t => getNodeByPathT t path

/-- The data of the fixed root node built by `RemoteTree._create_tree_root`.
It is a plain `DPNode`; its literal date parses, and `is_new=False` is a
Python bool, so `bool(False) = False` is stored. -/
def rootNodeData : DPNode :=
  (DPNode_init .base "Document" (some "Document") (some "folder")
    (some "root") (some "2017-12-12T13:53:50Z") (.vbool false)).1

/-- `RemoteTree._create_tree_root`: a fresh tree holding only the root. -/
def create_tree_root : RTree :=
  ⟨[⟨none, rootNodeData⟩]⟩

/-- The loop body of `RemoteTree._create_path`: for each intermediate
directory `d`, extend `lastpath`, synthesize an all-`None` placeholder
`DPFolderNode` if the current path does not resolve (attached under
whatever `get_node_by_path(lastpath)` returns — possibly `None`, which
leaves the placeholder detached), and continue.  A resolver exception
inside either lookup aborts the rebuild, leaving the tree as is. -/
def createPathLoop (t : RTree) (lastpath : String) :
    List String → RTree × Option PyErr
  | [] => (t, none)
  | d :: ds =>
    let curpath := lastpath ++ "/" ++ d
    match getNodeByPathT t curpath with
    | .error e => (t, some e)
    | .ok (some _) => createPathLoop t curpath ds
    | .ok none =>
      match getNodeByPathT t lastpath with
      | .error e => (t, some e)
      | .ok parent =>
        createPathLoop (t.addNode parent (placeholderNode curpath)) curpath ds

/-- `RemoteTree._create_path`: split the record's path and synthesize the
intermediate components `splpath[1:-1]`, starting from `splpath[0]`. -/
def create_path (t : RTree) (path : String) : RTree × Option PyErr :=
  let splpath := pySplit path
  createPathLoop t (splpath.headD "") ((splpath.drop 1).dropLast)

/-- The in-place update branch of `_create_update_node` (folder record whose
path resolved to an existing node): attributes are assigned one by one, so
the name/type/id assignments precede the fallible `todatetime` call, and
`node.is_new = bool(data["is_new"])` maps `None` to `False` (not `None`)
and any nonempty string — including `"false"` — to `True`. -/
def updateFolderInPlace (t : RTree) (i : Nat) (d : Record) : RTree × Option PyErr :=
  let t1 := t.updateNode i (fun n =>
    { n with entry_name := d.entry_name, entry_type := d.entry_type,
             entry_id := d.entry_id })
  match todatetime d.created_date with
  | .error e => (t1, some e)
  | .ok cd =>
    (t1.updateNode i (fun n =>
      { n with created_date := cd,
               is_new := some (pyTruthy (strOrNone d.is_new)),
               document_source := d.document_source,
               parent_folder_id := d.parent_folder_id }), none)

/-- `RemoteTree._create_update_node`: resolve the record's parent path, then
dispatch on `entry_type`: a folder record updates an existing node at its
path in place or else creates a `DPFolderNode`; a document record always
creates a `DPDocumentNode`; any other type is ignored.  Fresh nodes are
attached before their fallible field parses run, so a parse failure leaves
the partially initialised node in the tree. -/
def create_update_node (t : RTree) (d : Record) : RTree × Option PyErr :=
  let parentpath := pyRsplitParent d.entry_path
  match getNodeByPathT t parentpath with
  | .error e => (t, some e)
  | .ok parent =>
    if d.entry_type = some "folder" then
      match getNodeByPathT t d.entry_path with
      | .error e => (t, some e)
      | .ok none =>
        let (nd, e) := mkFolderFromRecord d
        (t.addNode parent nd, e)
      | .ok (some i) => updateFolderInPlace t i d
    else if d.entry_type = some "document" then
      let (nd, e) := mkDocFromRecord d
      (t.addNode parent nd, e)
    else (t, none)

/-- One iteration of the `rebuild_tree` loop:
`self._create_path(data["entry_path"]); self._create_update_node(data)`. -/
def processRecord (t : RTree) (d : Record) : RTree × Option PyErr :=
  match create_path t d.entry_path with
  | (t', some e) => (t', some e)
  | (t', none) => create_update_node t' d

/-- The `rebuild_tree` loop over the record collection; an exception stops
the loop but the partially built tree remains. -/
def processRecords (t : RTree) : List Record → RTree × Option PyErr
  | [] => (t, none)
  | d :: ds =>
    match processRecord t d with
    | (t', some e) => (t', some e)
    | (t', none) => processRecords t' ds

/-- `RemoteTree.rebuild_tree(jsondata)` as a function of the records alone:
a fresh root is created and every record is reconciled into the new tree. -/
def rebuild_tree (rs : List Record) : RTree × Option PyErr :=
  processRecords create_tree_root rs

/-- `RemoteTree.rebuild_tree` as a state transition: the previous tree (and
resolver) are discarded unconditionally before the loop runs, and the new
(possibly partial) tree is what the instance holds afterwards — also when a
record raised. -/
def rebuild (_prev : RemoteTree) (rs : List Record) : RemoteTree × Option PyErr :=
  ((some (rebuild_tree rs).1 : Option RTree), (rebuild_tree rs).2)

/-! ## Observations used by the claims -/

/-- The multiset (as a list, in creation order) of `entry_path`s in the tree. -/
def pathsList (t : RTree) : List String :=
  t.nodes.map (·.data.entry_path)

/-- Whether node `i` is attached to the tree root (index 0) through its
parent chain; fuel-bounded walk (parents always precede children in the
arena, so `t.nodes.length` steps suffice). -/
def rootedAux (t : RTree) : Nat → Nat → Bool
  | _, 0 => true
  | fuel, i =>
    match fuel with
    | 0 => false
    | f + 1 =>
      match (t.nodes[i]?).bind (·.parentIdx) with
      | none => false
      | some p => rootedAux t f p

/-- Node `i` is part of the tree rooted at node 0. -/
def rooted (t : RTree) (i : Nat) : Bool :=
  rootedAux t t.nodes.length i

/-- The per-node path/parent/name consistency relation of the spec: the node
exists, has a parent and a present `entry_name`, and its `entry_path` is the
parent's `entry_path` joined with that name by `"/"`. -/
def pathJoinOKb (t : RTree) (i : Nat) : Bool :=
  match t.nodes[i]? with
  | none => false
  | some nd =>
    match nd.parentIdx, nd.data.entry_name with
    | some par, some nm =>
      match t.dataAt? par with
      | some pdata => nd.data.entry_path = pdata.entry_path ++ "/" ++ nm
      | none => false
    | _, _ => false

/-! ## Concrete records used as test inputs -/

/-- A document record two folder levels below the root, with no records for
the intermediate folders (the spec's `Document/A/B/C/doc.pdf` scenario). -/
def recDocDeep : Record :=
  { entry_path := "Document/A/B/x.pdf", entry_name := some "x.pdf",
    entry_type := some "document", entry_id := some "d1",
    author := some "au", current_page := some "1", file_size := some "100",
    total_page := some "2" }

/-- A top-level document record (used twice to probe path uniqueness). -/
def recDocDup : Record :=
  { entry_path := "Document/a.pdf", entry_name := some "a.pdf",
    entry_type := some "document", entry_id := some "d" }

/-- A document one folder below the root, forcing a placeholder for
`Document/A`. -/
def recDocA : Record :=
  { entry_path := "Document/A/x.pdf", entry_name := some "x.pdf",
    entry_type := some "document", entry_id := some "d2" }

/-- An explicit folder record for `Document/A`, with full data. -/
def recFolderA : Record :=
  { entry_path := "Document/A", entry_name := some "A",
    entry_type := some "folder", entry_id := some "f1",
    is_new := some "false", parent_folder_id := some "root",
    document_source := some "src" }

/-- A top-level folder record (`Document/X`). -/
def recFolderX : Record :=
  { entry_path := "Document/X", entry_name := some "X",
    entry_type := some "folder", entry_id := some "fx",
    parent_folder_id := some "root" }

/-- A top-level folder record (`Document/Y`). -/
def recFolderY : Record :=
  { entry_path := "Document/Y", entry_name := some "Y",
    entry_type := some "folder", entry_id := some "fy",
    parent_folder_id := some "root" }

/-- A document record whose `created_date` does not match the date format,
so its construction raises `ValueError` partway through a rebuild. -/
def recDocBad : Record :=
  { entry_path := "Document/bad.pdf", entry_name := some "bad.pdf",
    entry_type := some "document", entry_id := some "db",
    created_date := some "garbage" }

/-- A folder record carrying `is_new: "false"`. -/
def recFolderF : Record :=
  { entry_path := "Document/F", entry_name := some "F",
    entry_type := some "folder", entry_id := some "ff",
    is_new := some "false", parent_folder_id := some "root" }

/-- A folder record carrying `is_new: "true"`. -/
def recFolderT : Record :=
  { entry_path := "Document/T", entry_name := some "T",
    entry_type := some "folder", entry_id := some "ft",
    is_new := some "true", parent_folder_id := some "root" }

/-- A second folder record for the same path with `is_new: null`,
triggering the in-place update branch. -/
def recFolderTn : Record :=
  { entry_path := "Document/T", entry_name := some "T",
    entry_type := some "folder", entry_id := some "ft2",
    parent_folder_id := some "root" }

/-! ## Claim C1 -/

/-- Claim C1 (code evaluated at the failing input): rebuilding from the
single record `Document/A/B/x.pdf` does synthesize placeholder folder nodes
at `Document/A` and `Document/A/B` with all optional fields absent, but —
because placeholders are constructed with `entry_name=None` while
`get_node_by_path` resolves path segments against `str(entry_name)` — the
lookups of `Document/A` and `Document/A/B` return the not-found outcome
instead of the placeholders, and the deeper placeholder is not even
attached to the root (its parent lookup failed, so it was created with
`parent=None`). -/
theorem C1_placeholders_not_resolvable :
    (rebuild_tree [recDocDeep]).2 = none ∧
    pathsList (rebuild_tree [recDocDeep]).1 =
      ["Document", "Document/A", "Document/A/B", "Document/A/B/x.pdf"] ∧
    ((rebuild_tree [recDocDeep]).1.dataAt? 1).map (·.entry_name) = some none ∧
    ((rebuild_tree [recDocDeep]).1.dataAt? 1).map (·.entry_id) = some none ∧
    getNodeByPathT (rebuild_tree [recDocDeep]).1 "Document/A" = .ok none ∧
    getNodeByPathT (rebuild_tree [recDocDeep]).1 "Document/A/B" = .ok none ∧
    rooted (rebuild_tree [recDocDeep]).1 2 = false := by
  decide

/-! ## Claim C3 -/

/-- Claim C3 counterexample: on a tree instance on which rebuild has never
been called, `get_node_by_path("Document")` does not produce the not-found
outcome — it raises `AttributeError` (`self._tree` is `None`). -/
theorem C3_counterexample :
    get_node_by_path (none : RemoteTree) "Document" = .error .attributeError ∧
    get_node_by_path (none : RemoteTree) "Document" ≠ .ok none := by
  decide

/-- Claim C3 amended: before any rebuild, `get_node_by_path` raises
`AttributeError` for every path argument; the not-found outcome is never
produced by a never-rebuilt instance. -/
theorem C3_amended (path : String) :
    get_node_by_path (none : RemoteTree) path = .error .attributeError := rfl

/-! ## Claim C4 -/

/-- Claim C4 (code evaluated at the failing input): a folder record for
`Document/A` arriving after the placeholder for `Document/A` was
synthesized does not update the placeholder in place — the lookup cannot
see the nameless placeholder, so a second, fresh node is created at the
same path, while the placeholder keeps all its fields absent. -/
theorem C4_placeholder_not_updated :
    (rebuild_tree [recDocA, recFolderA]).2 = none ∧
    (rebuild_tree [recDocA, recFolderA]).1.nodes.length = 4 ∧
    ((rebuild_tree [recDocA, recFolderA]).1.dataAt? 1).map (·.entry_path) =
      some "Document/A" ∧
    ((rebuild_tree [recDocA, recFolderA]).1.dataAt? 1).map (·.entry_name) = some none ∧
    ((rebuild_tree [recDocA, recFolderA]).1.dataAt? 1).map (·.entry_id) = some none ∧
    ((rebuild_tree [recDocA, recFolderA]).1.dataAt? 3).map (·.entry_path) =
      some "Document/A" ∧
    ((rebuild_tree [recDocA, recFolderA]).1.dataAt? 3).map (·.entry_id) =
      some (some "f1") ∧
    (pathsList (rebuild_tree [recDocA, recFolderA]).1).count "Document/A" = 2 := by
  decide

/-! ## Claim C7 -/

/-- Claim C7: rebuilding twice with the same record collection yields the
same tree (hence the same path-to-field-values mapping): `rebuild_tree`
discards the previous tree unconditionally and rebuilds from the records
alone, so the published tree never depends on the prior instance state. -/
theorem C7_rebuild_idempotent (s : RemoteTree) (rs : List Record) :
    (rebuild ((rebuild s rs).1) rs).1 = (rebuild s rs).1 := rfl

/-! ## Claim C9 -/

/-- Claim C9 (code evaluated at the failing inputs): the input `is_new`
value `"false"` is coerced with Python `bool(...)`, and a nonempty string
is truthy, so a freshly constructed node stores the TRUE state; and the
in-place update branch runs `bool(data["is_new"])` without a `None` guard,
so a null input stores the FALSE state instead of the unknown state.  (The
null-maps-to-unknown part does hold for fresh construction.) -/
theorem C9_is_new_coercion :
    (mkFolderFromRecord recFolderF).1.is_new = some true ∧
    (rebuild_tree [recFolderT, recFolderTn]).2 = none ∧
    (rebuild_tree [recFolderT, recFolderTn]).1.nodes.length = 2 ∧
    ((rebuild_tree [recFolderT, recFolderTn]).1.dataAt? 1).map (·.is_new) =
      some (some false) ∧
    (mkDocFromRecord recDocA).1.is_new = none := by
  decide

/-! ## Claim C2 (counterexample part) -/

/-- Claim C2 counterexample: two document records with the same
`entry_path` both produce a node at that path — after rebuilding from two
copies of the same document record, two distinct nodes attached under the
root share the path `Document/a.pdf`. -/
theorem C2_counterexample :
    (rebuild_tree [recDocDup, recDocDup]).2 = none ∧
    pathsList (rebuild_tree [recDocDup, recDocDup]).1 =
      ["Document", "Document/a.pdf", "Document/a.pdf"] ∧
    rooted (rebuild_tree [recDocDup, recDocDup]).1 1 = true ∧
    rooted (rebuild_tree [recDocDup, recDocDup]).1 2 = true := by
  decide

/-! ## Claim C5 (counterexample part) -/

/-- Claim C5 counterexample: a rebuild that fails partway is not
all-or-nothing.  Starting from a successful build containing `Document/X`,
a rebuild of `[Document/Y, bad-date document]` raises `ValueError`, and the
published tree afterwards contains `Document/Y` (from the new, incomplete
collection) while `Document/X` (from the previous successful build) is
gone: a partially constructed graph is published. -/
theorem C5_counterexample :
    get_node_by_path (rebuild (none : RemoteTree) [recFolderX]).1 "Document/X" =
      .ok (some 1) ∧
    (rebuild ((rebuild (none : RemoteTree) [recFolderX]).1) [recFolderY, recDocBad]).2 =
      some .valueError ∧
    get_node_by_path
      (rebuild ((rebuild (none : RemoteTree) [recFolderX]).1) [recFolderY, recDocBad]).1
      "Document/Y" = .ok (some 1) ∧
    get_node_by_path
      (rebuild ((rebuild (none : RemoteTree) [recFolderX]).1) [recFolderY, recDocBad]).1
      "Document/X" = .ok none := by
  decide

/-! ## Claim C6 (counterexample part) -/

/-- Claim C6 counterexample: after rebuilding from the single record
`Document/A/B/x.pdf`, the synthesized placeholder at `Document/A` is a
non-root node attached under the root, but its `entry_name` is absent, so
its `entry_path` is not (and cannot be) its parent's path joined with its
own name. -/
theorem C6_counterexample :
    (rebuild_tree [recDocDeep]).2 = none ∧
    ((rebuild_tree [recDocDeep]).1.nodes[1]?).map (·.parentIdx) = some (some 0) ∧
    rooted (rebuild_tree [recDocDeep]).1 1 = true ∧
    pathJoinOKb (rebuild_tree [recDocDeep]).1 1 = false := by
  decide

/-! ## Claim C8 -/

/-- A document record with the numeric strings from the spec's example. -/
def recDocNum : Record :=
  { entry_path := "Document/n.pdf", entry_name := some "n.pdf",
    entry_type := some "document", entry_id := some "dn",
    current_page := some "1", file_size := some "19093553",
    total_page := some "436" }

/-- A document record with a non-numeric `current_page`. -/
def recDocBadNum : Record :=
  { entry_path := "Document/m.pdf", entry_name := some "m.pdf",
    entry_type := some "document", entry_id := some "dm",
    current_page := some "abc" }

/-- Claim C8: constructing a document node parses `current_page`,
`file_size` and `total_page` with `int(...)`: the example strings yield the
integers `1`, `19093553` and `436`; a null/absent input leaves the field
absent (never zero), even when construction fails elsewhere; and a present
string that `int()` rejects makes the construction raise (`"abc"` being
such a string). -/
theorem C8_document_numeric_fields :
    (∀ d : Record, d.current_page = some "1" → d.file_size = some "19093553" →
      d.total_page = some "436" → (mkDocFromRecord d).2 = none →
      (mkDocFromRecord d).1.current_page = some 1 ∧
      (mkDocFromRecord d).1.file_size = some 19093553 ∧
      (mkDocFromRecord d).1.total_page = some 436) ∧
    (∀ d : Record, d.current_page = none → (mkDocFromRecord d).1.current_page = none) ∧
    (∀ d : Record, d.file_size = none → (mkDocFromRecord d).1.file_size = none) ∧
    (∀ d : Record, d.total_page = none → (mkDocFromRecord d).1.total_page = none) ∧
    (∀ (d : Record) (s : String), d.current_page = some s → pyInt s = none →
      (mkDocFromRecord d).2 ≠ none) ∧
    (∀ (d : Record) (s : String), d.file_size = some s → pyInt s = none →
      (mkDocFromRecord d).2 ≠ none) ∧
    (∀ (d : Record) (s : String), d.total_page = some s → pyInt s = none →
      (mkDocFromRecord d).2 ≠ none) ∧
    pyInt "abc" = none := by
  refine ⟨?_, ?_, ?_, ?_, ?_, ?_, ?_, by decide⟩
  · intro d h1 h2 h3 hok
    have e1 : pyIntField d.current_page = .ok (some 1) := by rw [h1]; decide
    have e2 : pyIntField d.file_size = .ok (some 19093553) := by rw [h2]; decide
    have e3 : pyIntField d.total_page = .ok (some 436) := by rw [h3]; decide
    rcases hcd : todatetime d.created_date with e | c
    · simp [mkDocFromRecord, DPDocumentNode_init, DPNode_init, hcd] at hok
    · rcases hmd : todatetime d.modified_date with e | md
      · simp [mkDocFromRecord, DPDocumentNode_init, DPNode_init, hcd, hmd] at hok
      · simp [mkDocFromRecord, DPDocumentNode_init, DPNode_init, hcd, hmd, e1, e2, e3]
  · intro d h1
    rcases hcd : todatetime d.created_date with e | c
    · simp [mkDocFromRecord, DPDocumentNode_init, DPNode_init, hcd]
    · rcases hmd : todatetime d.modified_date with e | md
      · simp [mkDocFromRecord, DPDocumentNode_init, DPNode_init, hcd, hmd]
      · have e1 : pyIntField d.current_page = .ok none := by rw [h1]; decide
        rcases e2 : pyIntField d.file_size with e | fs
        · simp [mkDocFromRecord, DPDocumentNode_init, DPNode_init, hcd, hmd, e1, e2]
        · rcases e3 : pyIntField d.total_page with e | tp
          · simp [mkDocFromRecord, DPDocumentNode_init, DPNode_init, hcd, hmd, e1, e2, e3]
          · simp [mkDocFromRecord, DPDocumentNode_init, DPNode_init, hcd, hmd, e1, e2, e3]
  · intro d h2
    rcases hcd : todatetime d.created_date with e | c
    · simp [mkDocFromRecord, DPDocumentNode_init, DPNode_init, hcd]
    · rcases hmd : todatetime d.modified_date with e | md
      · simp [mkDocFromRecord, DPDocumentNode_init, DPNode_init, hcd, hmd]
      · have e2 : pyIntField d.file_size = .ok none := by rw [h2]; decide
        rcases e1 : pyIntField d.current_page with e | cp
        · simp [mkDocFromRecord, DPDocumentNode_init, DPNode_init, hcd, hmd, e1]
        · rcases e3 : pyIntField d.total_page with e | tp
          · simp [mkDocFromRecord, DPDocumentNode_init, DPNode_init, hcd, hmd, e1, e2, e3]
          · simp [mkDocFromRecord, DPDocumentNode_init, DPNode_init, hcd, hmd, e1, e2, e3]
  · intro d h3
    rcases hcd : todatetime d.created_date with e | c
    · simp [mkDocFromRecord, DPDocumentNode_init, DPNode_init, hcd]
    · rcases hmd : todatetime d.modified_date with e | md
      · simp [mkDocFromRecord, DPDocumentNode_init, DPNode_init, hcd, hmd]
      · rcases e1 : pyIntField d.current_page with e | cp
        · simp [mkDocFromRecord, DPDocumentNode_init, DPNode_init, hcd, hmd, e1]
        · rcases e2 : pyIntField d.file_size with e | fs
          · simp [mkDocFromRecord, DPDocumentNode_init, DPNode_init, hcd, hmd, e1, e2]
          · have e3 : pyIntField d.total_page = .ok none := by rw [h3]; decide
            simp [mkDocFromRecord, DPDocumentNode_init, DPNode_init, hcd, hmd, e1, e2, e3]
  · intro d s hs hbad
    rcases hcd : todatetime d.created_date with e | c
    · simp [mkDocFromRecord, DPDocumentNode_init, DPNode_init, hcd]
    · rcases hmd : todatetime d.modified_date with e | md
      · simp [mkDocFromRecord, DPDocumentNode_init, DPNode_init, hcd, hmd]
      · have e1 : pyIntField d.current_page = .error .valueError := by
          rw [hs]; simp [pyIntField, hbad]
        simp [mkDocFromRecord, DPDocumentNode_init, DPNode_init, hcd, hmd, e1]
  · intro d s hs hbad
    rcases hcd : todatetime d.created_date with e | c
    · simp [mkDocFromRecord, DPDocumentNode_init, DPNode_init, hcd]
    · rcases hmd : todatetime d.modified_date with e | md
      · simp [mkDocFromRecord, DPDocumentNode_init, DPNode_init, hcd, hmd]
      · have e2 : pyIntField d.file_size = .error .valueError := by
          rw [hs]; simp [pyIntField, hbad]
        rcases e1 : pyIntField d.current_page with e | cp
        · simp [mkDocFromRecord, DPDocumentNode_init, DPNode_init, hcd, hmd, e1]
        · simp [mkDocFromRecord, DPDocumentNode_init, DPNode_init, hcd, hmd, e1, e2]
  · intro d s hs hbad
    rcases hcd : todatetime d.created_date with e | c
    · simp [mkDocFromRecord, DPDocumentNode_init, DPNode_init, hcd]
    · rcases hmd : todatetime d.modified_date with e | md
      · simp [mkDocFromRecord, DPDocumentNode_init, DPNode_init, hcd, hmd]
      · have e3 : pyIntField d.total_page = .error .valueError := by
          rw [hs]; simp [pyIntField, hbad]
        rcases e1 : pyIntField d.current_page with e | cp
        · simp [mkDocFromRecord, DPDocumentNode_init, DPNode_init, hcd, hmd, e1]
        · rcases e2 : pyIntField d.file_size with e | fs
          · simp [mkDocFromRecord, DPDocumentNode_init, DPNode_init, hcd, hmd, e1, e2]
          · simp [mkDocFromRecord, DPDocumentNode_init, DPNode_init, hcd, hmd, e1, e2, e3]

/-- Witness for C8: the universal clauses applied at concrete records. -/
theorem C8_document_numeric_fields_witness :
    ((mkDocFromRecord recDocNum).1.current_page = some 1 ∧
      (mkDocFromRecord recDocNum).1.file_size = some 19093553 ∧
      (mkDocFromRecord recDocNum).1.total_page = some 436) ∧
    (mkDocFromRecord recDocA).1.file_size = none ∧
    (mkDocFromRecord recDocBadNum).2 ≠ none :=
  ⟨C8_document_numeric_fields.1 recDocNum rfl rfl rfl (by decide),
    C8_document_numeric_fields.2.2.1 recDocA rfl,
    C8_document_numeric_fields.2.2.2.2.1 recDocBadNum "abc" rfl (by decide)⟩

/-! ## Claim C10 -/

/-- The first path part that the resolver walk does not skip
(`""` and `"."` parts are skipped). -/
def firstRealSeg : List String → Option String
  | [] => none
  | s :: rest => if s = "" || s = "." then firstRealSeg rest else some s

/-- On the root-only tree, a part list whose first non-skipped part is not
`".."` fails with `ChildResolverError` (the root has no children). -/
theorem resolveParts_root_only (rest : List String) (seg : String)
    (h : firstRealSeg rest = some seg) (hne : seg ≠ "..") :
    resolveParts create_tree_root 0 rest = .error .childResolverError := by
  induction rest with
  | nil => simp [firstRealSeg] at h
  | cons s rs ih =>
    by_cases hs : (s = "" || s = ".") = true
    · have hsne : ¬ s = ".." := by
        rcases Bool.or_eq_true_iff.mp hs with h1 | h1
        · simp_all
        · simp_all
      rw [firstRealSeg, if_pos hs] at h
      rw [resolveParts, if_neg hsne, if_pos hs]
      exact ih h
    · have hseq : seg = s := by
        rw [firstRealSeg, if_neg hs] at h
        exact (Option.some_inj.mp h).symm
      have hsne : ¬ s = ".." := by rw [← hseq]; exact hne
      rw [resolveParts, if_neg hsne, if_neg hs]
      have hfc : findChild create_tree_root 0 s = none := by
        simp [findChild, findChildAux, create_tree_root]
      rw [hfc]

/-- Claim C10 amended: rebuilding with the empty collection (from any prior
state) publishes exactly the root node with the fixed identity
(`entry_id="root"`, path and name `"Document"`, type `"folder"`, not-new),
`get_node_by_path("Document")` returns it, and a lookup of any other path
returns not-found when the path starts with the segment `"Document"` and
has a further real segment other than `".."` — but a path whose first
segment is not `"Document"` raises an uncaught `ResolverError` rather than
returning not-found. -/
theorem C10_amended :
    (∀ s : RemoteTree, rebuild s [] = (some create_tree_root, none)) ∧
    create_tree_root.nodes.length = 1 ∧
    (∃ rt : DPNode, create_tree_root.dataAt? 0 = some rt ∧
      rt.entry_id = some "root" ∧ rt.entry_path = "Document" ∧
      rt.entry_name = some "Document" ∧ rt.entry_type = some "folder" ∧
      rt.is_new = some false) ∧
    getNodeByPathT create_tree_root "Document" = .ok (some 0) ∧
    (∀ (path : String) (rest : List String) (seg : String),
      pySplit path = "Document" :: rest → firstRealSeg rest = some seg →
      seg ≠ ".." → getNodeByPathT create_tree_root path = .ok none) ∧
    (∀ (path : String) (first : String) (rest : List String),
      pySplit path = first :: rest → first ≠ "Document" →
      getNodeByPathT create_tree_root path = .error .resolverError) := by
  refine ⟨fun s => rfl, rfl, ⟨rootNodeData, rfl, by decide, by decide, by decide,
    by decide, by decide⟩, by decide, ?_, ?_⟩
  · intro path rest seg hsplit hreal hne
    have hwalk := resolveParts_root_only rest seg hreal hne
    have hroot : create_tree_root.dataAt? 0 = some rootNodeData := rfl
    have hname : nameStr rootNodeData.entry_name = "Document" := by decide
    simp [getNodeByPathT, resolverGet, hsplit, hroot, hname, hwalk]
  · intro path first rest hsplit hne
    have hroot : create_tree_root.dataAt? 0 = some rootNodeData := rfl
    have hname : nameStr rootNodeData.entry_name = "Document" := by decide
    have hne2 : ¬ ("Document" : String) = first := fun hcon => hne hcon.symm
    by_cases hfe : first = ""
    · subst hfe
      simp [getNodeByPathT, resolverGet, hsplit]
    · simp [getNodeByPathT, resolverGet, hsplit, hroot, hname, hfe, hne2]

/-- Witness for C10: the universal clauses applied at concrete paths. -/
theorem C10_amended_witness :
    rebuild (none : RemoteTree) [] = (some create_tree_root, none) ∧
    getNodeByPathT create_tree_root "Document/does/not/exist" = .ok none ∧
    getNodeByPathT create_tree_root "Foo" = .error .resolverError :=
  ⟨C10_amended.1 none,
    C10_amended.2.2.2.2.1 "Document/does/not/exist" ["does", "not", "exist"] "does"
      (by decide) (by decide) (by decide),
    C10_amended.2.2.2.2.2 "Foo" "Foo" [] (by decide) (by decide)⟩

/-! ## Claim C5 (amended part) -/

/-- One processing step that raises stops the loop with the partial tree. -/
theorem processRecords_cons_err (t : RTree) (d : Record) (ds : List Record)
    (t' : RTree) (e : PyErr) (h : processRecord t d = (t', some e)) :
    processRecords t (d :: ds) = (t', some e) := by
  unfold processRecords
  simp only [h]

/-- One successful processing step continues the loop on its result. -/
theorem processRecords_cons_ok (t : RTree) (d : Record) (ds : List Record)
    (t' : RTree) (h : processRecord t d = (t', none)) :
    processRecords t (d :: ds) = processRecords t' ds := by
  conv_lhs => unfold processRecords
  simp only [h]

/-- Processing a record list that extends an error-free prefix continues
from the prefix's tree. -/
theorem processRecords_append_ok (as : List Record) (t t1 : RTree)
    (rs2 : List Record) (h : processRecords t as = (t1, none)) :
    processRecords t (as ++ rs2) = processRecords t1 rs2 := by
  induction as generalizing t with
  | nil =>
    unfold processRecords at h
    have ht : t = t1 := congrArg Prod.fst h
    rw [List.nil_append, ht]
  | cons d ds ih =>
    rw [List.cons_append]
    cases hpr : processRecord t d with
    | mk t' e =>
      cases e with
      | some e =>
        rw [processRecords_cons_err t d ds t' e hpr] at h
        simp at h
      | none =>
        rw [processRecords_cons_ok t d ds t' hpr] at h
        rw [processRecords_cons_ok t d (ds ++ rs2) t' hpr]
        exact ih t' h

/-- Claim C5 amended: `rebuild` is not all-or-nothing.  The previous tree is
discarded unconditionally before the loop (the published outcome does not
depend on the prior state at all), and when a record raises, the records
before it are fully applied, the failing record's partial effects are kept,
the records after it are never processed, and that partial tree is what the
instance publishes. -/
theorem C5_amended (s1 s2 : RemoteTree) (as : List Record) (r : Record)
    (bs : List Record) (t1 t2 : RTree) (e : PyErr)
    (hpre : processRecords create_tree_root as = (t1, none))
    (hfail : processRecord t1 r = (t2, some e)) :
    rebuild s1 (as ++ r :: bs) = (some t2, some e) ∧
    rebuild s1 (as ++ r :: bs) = rebuild s2 (as ++ r :: bs) := by
  have hrt : rebuild_tree (as ++ r :: bs) = (t2, some e) := by
    unfold rebuild_tree
    rw [processRecords_append_ok as create_tree_root t1 _ hpre]
    unfold processRecords
    simp only [hfail]
  exact ⟨by simp [rebuild, hrt], rfl⟩

/-- Witness for C5: the concrete failing rebuild from the counterexample,
driven through the amended theorem. -/
theorem C5_amended_witness :
    rebuild (none : RemoteTree) [recFolderY, recDocBad] =
      (some (processRecord (processRecords create_tree_root [recFolderY]).1 recDocBad).1,
        some PyErr.valueError) :=
  (C5_amended none (some create_tree_root) [recFolderY] recDocBad []
      (processRecords create_tree_root [recFolderY]).1
      (processRecord (processRecords create_tree_root [recFolderY]).1 recDocBad).1
      PyErr.valueError (by decide) (by decide)).1

/-! ## Claim C2 (amended part) -/

/-- Appending a node appends its path to the path multiset. -/
theorem pathsList_addNode (t : RTree) (p : Option Nat) (d : DPNode) :
    pathsList (t.addNode p d) = pathsList t ++ [d.entry_path] := by
  simp [pathsList, RTree.addNode]

/-- An index update whose function preserves `entry_path` preserves the
path multiset. -/
theorem map_modifyAt (f : TreeNode → TreeNode)
    (hf : ∀ n, (f n).data.entry_path = n.data.entry_path) :
    ∀ (l : List TreeNode) (i : Nat),
      (modifyAt i f l).map (·.data.entry_path) = l.map (·.data.entry_path) := by
  intro l
  induction l with
  | nil => intro i; simp [modifyAt]
  | cons x xs ih =>
    intro i
    cases i with
    | zero => simp [modifyAt, hf]
    | succ j => simp [modifyAt, ih]

/-- `updateNode` with a path-preserving data update preserves the path
multiset. -/
theorem pathsList_updateNode (t : RTree) (i : Nat) (f : DPNode → DPNode)
    (hf : ∀ d, (f d).entry_path = d.entry_path) :
    pathsList (t.updateNode i f) = pathsList t := by
  simp only [pathsList, RTree.updateNode]
  exact map_modifyAt _ (fun n => hf n.data) t.nodes i

/-- The placeholder-synthesis loop never removes occurrences of a path. -/
theorem countPath_createPathLoop (p : String) :
    ∀ (ds : List String) (t : RTree) (lp : String),
      (pathsList t).count p ≤ (pathsList (createPathLoop t lp ds).1).count p := by
  intro ds
  induction ds with
  | nil => intro t lp; simp [createPathLoop]
  | cons d rest ih =>
    intro t lp
    unfold createPathLoop
    cases h1 : getNodeByPathT t (lp ++ "/" ++ d) with
    | error e => simp only [h1]; exact le_refl _
    | ok r =>
      cases r with
      | some j => simp only [h1]; exact ih t (lp ++ "/" ++ d)
      | none =>
        cases h2 : getNodeByPathT t lp with
        | error e => simp only [h1, h2]; exact le_refl _
        | ok parent =>
          simp only [h1, h2]
          calc (pathsList t).count p
              ≤ (pathsList (t.addNode parent (placeholderNode (lp ++ "/" ++ d)))).count p := by
                rw [pathsList_addNode]
                rw [List.count_append]
                exact Nat.le_add_right _ _
            _ ≤ _ := ih _ (lp ++ "/" ++ d)

/-- `_create_path` never removes occurrences of a path. -/
theorem countPath_create_path (t : RTree) (path : String) (p : String) :
    (pathsList t).count p ≤ (pathsList (create_path t path).1).count p := by
  unfold create_path
  exact countPath_createPathLoop p _ t _

/-- `_create_update_node` never removes occurrences of a path. -/
theorem countPath_create_update_node (t : RTree) (d : Record) (p : String) :
    (pathsList t).count p ≤ (pathsList (create_update_node t d).1).count p := by
  unfold create_update_node
  cases hp : getNodeByPathT t (pyRsplitParent d.entry_path) with
  | error e => simp only [hp]; exact le_refl _
  | ok parent =>
    by_cases hf : d.entry_type = some "folder"
    · simp only [hp, if_pos hf]
      cases hn : getNodeByPathT t d.entry_path with
      | error e => simp only [hn]; exact le_refl _
      | ok r =>
        cases r with
        | none =>
          simp only [hn, pathsList_addNode, List.count_append]
          exact Nat.le_add_right _ _
        | some i =>
          simp only [hn]
          unfold updateFolderInPlace
          cases hcd : todatetime d.created_date with
          | error e =>
            simp only [hcd]
            have h1 : pathsList (t.updateNode i (fun n =>
                { n with entry_name := d.entry_name, entry_type := d.entry_type,
                         entry_id := d.entry_id })) = pathsList t :=
              pathsList_updateNode _ _ _ (fun x => rfl)
            exact le_of_eq (by rw [h1])
          | ok cd =>
            simp only [hcd]
            have h1 : pathsList (t.updateNode i (fun n =>
                { n with entry_name := d.entry_name, entry_type := d.entry_type,
                         entry_id := d.entry_id })) = pathsList t :=
              pathsList_updateNode _ _ _ (fun x => rfl)
            have h2 : pathsList ((t.updateNode i (fun n =>
                { n with entry_name := d.entry_name, entry_type := d.entry_type,
                         entry_id := d.entry_id })).updateNode i (fun n =>
                { n with created_date := cd,
                         is_new := some (pyTruthy (strOrNone d.is_new)),
                         document_source := d.document_source,
                         parent_folder_id := d.parent_folder_id })) =
                pathsList (t.updateNode i (fun n =>
                { n with entry_name := d.entry_name, entry_type := d.entry_type,
                         entry_id := d.entry_id })) :=
              pathsList_updateNode _ _ _ (fun x => rfl)
            exact le_of_eq (by rw [h2, h1])
    · by_cases hd : d.entry_type = some "document"
      · simp only [hp, if_neg hf, if_pos hd, pathsList_addNode, List.count_append]
        exact Nat.le_add_right _ _
      · simp only [hp, if_neg hf, if_neg hd]; exact le_refl _

/-- One record-processing step never removes occurrences of a path. -/
theorem countPath_processRecord (t : RTree) (d : Record) (p : String) :
    (pathsList t).count p ≤ (pathsList (processRecord t d).1).count p := by
  unfold processRecord
  cases hcp : create_path t d.entry_path with
  | mk t' e =>
    have h1 : (pathsList t).count p ≤ (pathsList t').count p := by
      have h := countPath_create_path t d.entry_path p
      rw [hcp] at h
      exact h
    cases e with
    | some e => simp only [hcp]; exact h1
    | none =>
      simp only [hcp]
      exact h1.trans (countPath_create_update_node t' d p)

/-- A document node constructed from a record carries the record's
`entry_path`, also when a later field parse failed. -/
theorem mkDocFromRecord_path (d : Record) :
    (mkDocFromRecord d).1.entry_path = d.entry_path := by
  rcases hcd : todatetime d.created_date with e | c
  · simp [mkDocFromRecord, DPDocumentNode_init, DPNode_init, hcd]
  · rcases hmd : todatetime d.modified_date with e | md
    · simp [mkDocFromRecord, DPDocumentNode_init, DPNode_init, hcd, hmd]
    · rcases e1 : pyIntField d.current_page with e | cp
      · simp [mkDocFromRecord, DPDocumentNode_init, DPNode_init, hcd, hmd, e1]
      · rcases e2 : pyIntField d.file_size with e | fs
        · simp [mkDocFromRecord, DPDocumentNode_init, DPNode_init, hcd, hmd, e1, e2]
        · rcases e3 : pyIntField d.total_page with e | tp
          · simp [mkDocFromRecord, DPDocumentNode_init, DPNode_init, hcd, hmd, e1, e2, e3]
          · simp [mkDocFromRecord, DPDocumentNode_init, DPNode_init, hcd, hmd, e1, e2, e3]

/-- Processing a document record without an exception adds a node at the
record's path. -/
theorem countPath_processRecord_document (t : RTree) (d : Record)
    (hd : d.entry_type = some "document") (hok : (processRecord t d).2 = none) :
    (pathsList t).count d.entry_path + 1 ≤
      (pathsList (processRecord t d).1).count d.entry_path := by
  unfold processRecord at hok ⊢
  cases hcp : create_path t d.entry_path with
  | mk t' e =>
    simp only [hcp] at hok ⊢
    cases e with
    | some e => simp at hok
    | none =>
      have h1 : (pathsList t).count d.entry_path ≤ (pathsList t').count d.entry_path := by
        have h := countPath_create_path t d.entry_path d.entry_path
        rw [hcp] at h
        exact h
      unfold create_update_node at hok ⊢
      cases hp : getNodeByPathT t' (pyRsplitParent d.entry_path) with
      | error e => simp only [hp] at hok; simp at hok
      | ok parent =>
        have hf : ¬ d.entry_type = some "folder" := by
          rw [hd]; intro hcon; simp at hcon
        simp only [hp, if_neg hf, if_pos hd]
        rw [pathsList_addNode, List.count_append, mkDocFromRecord_path]
        have h2 : List.count d.entry_path [d.entry_path] = 1 := by simp
        rw [h2]
        exact Nat.add_le_add_right h1 1

/-- Over an exception-free run, the final tree holds at least one node per
document record at each path (on top of what was there before). -/
theorem countPath_processRecords (p : String) :
    ∀ (rs : List Record) (t : RTree),
      (processRecords t rs).2 = none →
      (pathsList t).count p +
          rs.countP (fun r => r.entry_type = some "document" && r.entry_path = p) ≤
        (pathsList (processRecords t rs).1).count p := by
  intro rs
  induction rs with
  | nil => intro t h; simp [processRecords]
  | cons d ds ih =>
    intro t h
    cases hpr : processRecord t d with
    | mk t' e =>
      cases e with
      | some e =>
        rw [processRecords_cons_err t d ds t' e hpr] at h
        simp at h
      | none =>
        rw [processRecords_cons_ok t d ds t' hpr] at h ⊢
        have hstep := ih t' h
        rw [List.countP_cons]
        by_cases hdp : (d.entry_type = some "document" ∧ d.entry_path = p)
        · have hc : (decide (d.entry_type = some "document") &&
              decide (d.entry_path = p)) = true := by
            rw [decide_eq_true hdp.1, decide_eq_true hdp.2]
            rfl
          have hadd := countPath_processRecord_document t d hdp.1 (by rw [hpr])
          rw [hpr] at hadd
          have hadd2 : (pathsList t).count d.entry_path + 1 ≤
              (pathsList t').count d.entry_path := hadd
          rw [hdp.2] at hadd2
          simp only [hc, if_true]
          omega
        · have hc : (decide (d.entry_type = some "document") &&
              decide (d.entry_path = p)) = false := by
            rcases Decidable.not_and_iff_or_not.mp hdp with hl | hl
            · rw [decide_eq_false hl]; rfl
            · rw [decide_eq_false hl]; simp
          have hmono := countPath_processRecord t d p
          rw [hpr] at hmono
          have hmono2 : (pathsList t).count p ≤ (pathsList t').count p := hmono
          simp only [hc, Bool.false_eq_true, if_false]
          omega

/-- Claim C2 amended: the no-duplicate-paths invariant fails for document
records — a document record always creates a fresh node, so any collection
containing two document records with the same `entry_path` yields, after an
exception-free rebuild, at least two tree nodes carrying that path (and
unresolvable placeholders are likewise re-synthesized per record that needs
them).  Uniqueness is enforced (via the lookup guards) only for folder
records whose path resolves. -/
theorem C2_amended (as bs cs : List Record) (r1 r2 : Record) (p : String)
    (h1 : r1.entry_type = some "document") (h2 : r2.entry_type = some "document")
    (hp1 : r1.entry_path = p) (hp2 : r2.entry_path = p)
    (hok : (rebuild_tree (as ++ r1 :: bs ++ r2 :: cs)).2 = none) :
    2 ≤ (pathsList (rebuild_tree (as ++ r1 :: bs ++ r2 :: cs)).1).count p := by
  have hmain := countPath_processRecords p (as ++ r1 :: bs ++ r2 :: cs)
    create_tree_root hok
  have hc : 2 ≤ (as ++ r1 :: bs ++ r2 :: cs).countP
      (fun r => r.entry_type = some "document" && r.entry_path = p) := by
    have e1 : (decide (r1.entry_type = some "document") &&
        decide (r1.entry_path = p)) = true := by
      rw [decide_eq_true h1, decide_eq_true hp1]; rfl
    have e2 : (decide (r2.entry_type = some "document") &&
        decide (r2.entry_path = p)) = true := by
      rw [decide_eq_true h2, decide_eq_true hp2]; rfl
    rw [List.countP_append, List.countP_cons, List.countP_append, List.countP_cons]
    simp only [e1, e2, if_true]
    omega
  unfold rebuild_tree at hmain ⊢
  omega

/-- Witness for C2: the amended theorem applied at the concrete
double-document collection. -/
theorem C2_amended_witness :
    2 ≤ (pathsList (rebuild_tree ([] ++ recDocDup :: [] ++ recDocDup :: [])).1).count
      "Document/a.pdf" :=
  C2_amended [] [] [] recDocDup recDocDup "Document/a.pdf" rfl rfl rfl rfl (by decide)

/-! ## Claim C6 (amended part)

The join invariant fails on placeholders, but holds for well-formed
collections in which every folder appears as an explicit record before
anything below it.  The development proves this by an inductive invariant
over the rebuild loop; it rests on split/join algebra for `"/"`-separated
paths and on soundness/stability lemmas for the name resolver. -/

/-- `splitChar` never returns the empty list. -/
theorem splitChar_ne_nil (c : Char) : ∀ l : List Char, splitChar c l ≠ [] := by
  intro l
  induction l with
  | nil => simp [splitChar]
  | cons x xs ih =>
    by_cases hx : x = c
    · simp [splitChar, hx]
    · simp only [splitChar, if_neg hx]
      cases hs : splitChar c xs with
      | nil => simp
      | cons g gs => simp

/-- Groups produced by `splitChar` do not contain the separator. -/
theorem splitChar_no_sep (c : Char) : ∀ (l : List Char) (g : List Char),
    g ∈ splitChar c l → c ∉ g := by
  intro l
  induction l with
  | nil =>
    intro g hg
    simp [splitChar] at hg
    simp [hg]
  | cons x xs ih =>
    intro g hg
    by_cases hx : x = c
    · simp only [splitChar, if_pos hx, List.mem_cons] at hg
      rcases hg with hg | hg
      · simp [hg]
      · exact ih g hg
    · simp only [splitChar, if_neg hx] at hg
      cases hs : splitChar c xs with
      | nil => exact absurd hs (splitChar_ne_nil c xs)
      | cons g0 gs =>
        rw [hs, List.mem_cons] at hg
        rcases hg with hg | hg
        · subst hg
          intro hmem
          rcases List.mem_cons.mp hmem with h | h
          · exact hx h.symm
          · exact ih g0 (hs ▸ List.mem_cons_self g0 gs) h
        · exact ih g (hs ▸ List.mem_cons_of_mem g0 hg)

/-- A separator-free list splits to the single group holding it. -/
theorem splitChar_of_no_sep (c : Char) : ∀ l : List Char, c ∉ l →
    splitChar c l = [l] := by
  intro l
  induction l with
  | nil => intro h; rfl
  | cons x xs ih =>
    intro h
    have hx : ¬ x = c := fun hc => h (hc ▸ List.mem_cons_self x xs)
    have hxs : c ∉ xs := fun hc => h (List.mem_cons_of_mem x hc)
    simp only [splitChar, if_neg hx, ih hxs]

/-- Splitting at the first separator after a separator-free prefix. -/
theorem splitChar_sep_append (c : Char) : ∀ (g ys : List Char), c ∉ g →
    splitChar c (g ++ c :: ys) = g :: splitChar c ys := by
  intro g
  induction g with
  | nil =>
    intro ys _
    simp [splitChar]
  | cons x xs ih =>
    intro ys h
    have hx : ¬ x = c := fun hc => h (hc ▸ List.mem_cons_self x xs)
    have hxs : c ∉ xs := fun hc => h (List.mem_cons_of_mem x hc)
    show splitChar c (x :: (xs ++ c :: ys)) = (x :: xs) :: splitChar c ys
    simp only [splitChar, if_neg hx, ih ys hxs]

/-- `splitChar` is a left inverse of `joinChar` on separator-free groups. -/
theorem splitChar_joinChar (c : Char) : ∀ gs : List (List Char),
    (∀ g ∈ gs, c ∉ g) → gs ≠ [] → splitChar c (joinChar c gs) = gs := by
  intro gs
  induction gs with
  | nil => intro _ h; simp at h
  | cons g gs ih =>
    intro hfree _
    cases gs with
    | nil =>
      simp only [joinChar]
      exact splitChar_of_no_sep c g (hfree g (List.mem_cons_self g []))
    | cons g' gs' =>
      have hg : c ∉ g := hfree g (List.mem_cons_self g _)
      simp only [joinChar, splitChar_sep_append c g _ hg]
      rw [ih (fun x hx => hfree x (List.mem_cons_of_mem g hx)) (by simp)]

/-- `joinChar` is a left inverse of `splitChar`. -/
theorem joinChar_splitChar (c : Char) : ∀ l : List Char,
    joinChar c (splitChar c l) = l := by
  intro l
  induction l with
  | nil => rfl
  | cons x xs ih =>
    by_cases hx : x = c
    · subst hx
      simp only [splitChar, if_pos rfl]
      cases hs : splitChar x xs with
      | nil => exact absurd hs (splitChar_ne_nil x xs)
      | cons g gs =>
        simp only [joinChar]
        rw [← hs, ih]
        rfl
    · simp only [splitChar, if_neg hx]
      cases hs : splitChar c xs with
      | nil => exact absurd hs (splitChar_ne_nil c xs)
      | cons g gs =>
        cases gs with
        | nil =>
          simp only [joinChar]
          have := ih
          rw [hs] at this
          simp only [joinChar] at this
          rw [this]
        | cons g' gs' =>
          simp only [joinChar, List.cons_append]
          have := ih
          rw [hs] at this
          simp only [joinChar] at this
          rw [this]

/-- Appending strings appends their character lists (definitional). -/
theorem mk_append (a b : List Char) :
    String.mk a ++ String.mk b = String.mk (a ++ b) := rfl

/-- `joinSegs` agrees with `joinChar` through `String.mk`. -/
theorem joinSegs_map_mk : ∀ gs : List (List Char),
    joinSegs (gs.map String.mk) = String.mk (joinChar '/' gs) := by
  intro gs
  induction gs with
  | nil => rfl
  | cons g gs ih =>
    cases gs with
    | nil => rfl
    | cons g' gs' =>
      have hstep : joinSegs (List.map String.mk (g :: g' :: gs')) =
          String.mk g ++ "/" ++ joinSegs (List.map String.mk (g' :: gs')) := rfl
      rw [hstep, ih]
      show String.mk (g ++ ['/'] ++ joinChar '/' (g' :: gs')) =
        String.mk (joinChar '/' (g :: g' :: gs'))
      rw [List.append_assoc]
      rfl

/-- `pySplit` never returns the empty list. -/
theorem pySplit_ne_nil (s : String) : pySplit s ≠ [] := by
  unfold pySplit
  intro h
  exact splitChar_ne_nil '/' s.toList (List.map_eq_nil_iff.mp h)

/-- Joining the split of a path gives back the path. -/
theorem joinSegs_pySplit (s : String) : joinSegs (pySplit s) = s := by
  unfold pySplit
  rw [joinSegs_map_mk, joinChar_splitChar]
  rfl

/-- Segments of a split are slash-free. -/
theorem pySplit_no_slash (s : String) : ∀ g ∈ pySplit s, '/' ∉ g.toList := by
  intro g hg
  unfold pySplit at hg
  rcases List.mem_map.mp hg with ⟨cs, hcs, hmk⟩
  have : g.toList = cs := by rw [← hmk]; rfl
  rw [this]
  exact splitChar_no_sep '/' s.toList cs hcs

/-- Splitting the join of slash-free segments gives back the segments. -/
theorem pySplit_joinSegs (segs : List String)
    (hfree : ∀ g ∈ segs, '/' ∉ g.toList) (hne : segs ≠ []) :
    pySplit (joinSegs segs) = segs := by
  have hrepr : segs = (segs.map String.toList).map String.mk := by
    rw [List.map_map]
    have : (String.mk ∘ String.toList) = id := by
      funext x
      rfl
    rw [this, List.map_id]
  rw [hrepr, joinSegs_map_mk]
  unfold pySplit
  have htl : (String.mk (joinChar '/' (segs.map String.toList))).toList =
      joinChar '/' (segs.map String.toList) := rfl
  rw [htl, splitChar_joinChar]
  · intro g hg
    rcases List.mem_map.mp hg with ⟨s0, hs0, rfl⟩
    exact hfree s0 hs0
  · intro h
    exact hne (List.map_eq_nil_iff.mp h)

/-- Merging the first two segments of a join. -/
theorem joinSegs_cons_cons (a b : String) (l : List String) :
    joinSegs (a :: b :: l) = joinSegs ((a ++ "/" ++ b) :: l) := by
  cases l with
  | nil => rfl
  | cons c l' =>
    simp only [joinSegs]
    rw [← String.append_assoc, ← String.append_assoc]

/-- Splitting off the last segment of a join. -/
theorem joinSegs_append_singleton : ∀ (xs : List String) (a : String), xs ≠ [] →
    joinSegs (xs ++ [a]) = joinSegs xs ++ "/" ++ a := by
  intro xs
  induction xs with
  | nil => intro a h; simp at h
  | cons x xs ih =>
    intro a _
    cases xs with
    | nil => rfl
    | cons y ys =>
      have hstep : joinSegs ((x :: y :: ys) ++ [a]) =
          x ++ "/" ++ joinSegs ((y :: ys) ++ [a]) := rfl
      rw [hstep, ih a (by simp)]
      have hstep2 : joinSegs (x :: y :: ys) = x ++ "/" ++ joinSegs (y :: ys) := rfl
      rw [hstep2, ← String.append_assoc, ← String.append_assoc]

/-- `rsplit`-parent in terms of segments: dropping the last segment. -/
theorem pyRsplitParent_segs (s : String) (h2 : 2 ≤ (pySplit s).length) :
    pyRsplitParent s = joinSegs ((pySplit s).dropLast) := by
  unfold pyRsplitParent pySplit
  cases hs : splitChar '/' s.toList with
  | nil => exact absurd hs (splitChar_ne_nil '/' s.toList)
  | cons g gs =>
    cases gs with
    | nil =>
      exfalso
      unfold pySplit at h2
      rw [hs] at h2
      simp at h2
    | cons g' gs' =>
      rw [← List.map_dropLast, joinSegs_map_mk]

/-- Well-formedness of one path segment for the amended claims: nonempty
and none of the resolver-special strings (`"."`, `".."`) nor the
stringification of an absent name. -/
def goodSegB (s : String) : Bool :=
  s ≠ "" && s ≠ "." && s ≠ ".." && s ≠ "None"

/-- The `curpath` chain walked by `_create_path`: all intermediate ancestor
paths of a record path, ancestor-first. -/
def chainPaths (lp : String) : List String → List String
  | [] => []
  | d :: ds => (lp ++ "/" ++ d) :: chainPaths (lp ++ "/" ++ d) ds

/-- A record is well formed w.r.t. the paths `seen` so far: a folder or
document record whose path has at least two good segments starting at
`"Document"`, whose name is its last path segment, all of whose intermediate
ancestor paths and whose parent path were seen before, and whose own path is
fresh. -/
def wfRecord (seen : List String) (r : Record) : Bool :=
  let segs := pySplit r.entry_path
  decide (2 ≤ segs.length) &&
  (segs.headD "" = "Document") &&
  segs.all goodSegB &&
  (r.entry_name = some (segs.getLastD "")) &&
  (r.entry_type = some "folder" || r.entry_type = some "document") &&
  (chainPaths (segs.headD "") ((segs.drop 1).dropLast)).all seen.contains &&
  seen.contains (pyRsplitParent r.entry_path) &&
  !(seen.contains r.entry_path)

/-- A whole collection is well formed: each record w.r.t. the root path and
the paths of the records before it (folders listed before their contents,
no duplicate paths). -/
def wfRecords : List String → List Record → Bool
  | _, [] => true
  | seen, r :: rs => wfRecord seen r && wfRecords (r.entry_path :: seen) rs

/-- The per-node join invariant: every non-root node in the arena is
attached, carries a good name, and its path is its parent's path joined
with that name. -/
def JoinInv (t : RTree) : Prop :=
  ∀ (i : Nat) (nd : TreeNode), t.nodes[i]? = some nd → i ≠ 0 →
    ∃ par nm pd, nd.parentIdx = some par ∧ nd.data.entry_name = some nm ∧
      goodSegB nm = true ∧ t.nodes[par]? = some pd ∧
      nd.data.entry_path = pd.data.entry_path ++ "/" ++ nm

/-- The full inductive invariant of the rebuild loop on well-formed
collections. -/
structure WfInv (t : RTree) (seen : List String) : Prop where
  root : t.nodes[0]? = some ⟨none, rootNodeData⟩
  join : JoinInv t
  seen_paths : ∀ (i : Nat) (nd : TreeNode), t.nodes[i]? = some nd →
      nd.data.entry_path ∈ seen
  resolves : ∀ q ∈ seen, ∃ (j : Nat) (nd : TreeNode),
      getNodeByPathT t q = .ok (some j) ∧
      t.nodes[j]? = some nd ∧ nd.data.entry_path = q

/-- Soundness of the child scan: a hit is a child of the parent with the
searched (stringified) name. -/
theorem findChildAux_sound (par : Nat) (part : String) :
    ∀ (l : List TreeNode) (idx j : Nat), findChildAux par part l idx = some j →
      ∃ k nd, j = idx + k ∧ l[k]? = some nd ∧ nd.parentIdx = some par ∧
        nameStr nd.data.entry_name = part := by
  intro l
  induction l with
  | nil => intro idx j h; simp [findChildAux] at h
  | cons n rest ih =>
    intro idx j h
    unfold findChildAux at h
    by_cases hc : (n.parentIdx = some par ∧ nameStr n.data.entry_name = part)
    · have hcb : (decide (n.parentIdx = some par) &&
          decide (nameStr n.data.entry_name = part)) = true := by
        rw [decide_eq_true hc.1, decide_eq_true hc.2]; rfl
      rw [if_pos hcb] at h
      refine ⟨0, n, ?_, by simp, hc.1, hc.2⟩
      simp at h
      omega
    · have hcb : (decide (n.parentIdx = some par) &&
          decide (nameStr n.data.entry_name = part)) = false := by
        rcases Decidable.not_and_iff_or_not.mp hc with hl | hl
        · rw [decide_eq_false hl]; rfl
        · rw [decide_eq_false hl]; simp
      rw [hcb] at h
      simp only [Bool.false_eq_true, if_false] at h
      rcases ih (idx + 1) j h with ⟨k, nd, hj, hk, hp, hn⟩
      refine ⟨k + 1, nd, by omega, ?_, hp, hn⟩
      simpa using hk

/-- A successful child scan is stable under appending a node. -/
theorem findChildAux_append_some (par : Nat) (part : String) (x : TreeNode) :
    ∀ (l : List TreeNode) (idx j : Nat), findChildAux par part l idx = some j →
      findChildAux par part (l ++ [x]) idx = some j := by
  intro l
  induction l with
  | nil => intro idx j h; simp [findChildAux] at h
  | cons n rest ih =>
    intro idx j h
    rw [List.cons_append]
    simp only [findChildAux] at h ⊢
    by_cases hcb : (decide (n.parentIdx = some par) &&
        decide (nameStr n.data.entry_name = part)) = true
    · rw [if_pos hcb] at h ⊢
      exact h
    · rw [if_neg hcb] at h ⊢
      exact ih (idx + 1) j h

/-- A failed child scan finds an appended matching node at the end. -/
theorem findChildAux_append_none (par : Nat) (part : String) (x : TreeNode)
    (hx : x.parentIdx = some par ∧ nameStr x.data.entry_name = part) :
    ∀ (l : List TreeNode) (idx : Nat), findChildAux par part l idx = none →
      findChildAux par part (l ++ [x]) idx = some (idx + l.length) := by
  intro l
  induction l with
  | nil =>
    intro idx h
    have hcb : (decide (x.parentIdx = some par) &&
        decide (nameStr x.data.entry_name = part)) = true := by
      rw [decide_eq_true hx.1, decide_eq_true hx.2]; rfl
    simp only [List.nil_append, findChildAux, hcb, if_pos]
    simp
  | cons n rest ih =>
    intro idx h
    rw [List.cons_append]
    simp only [findChildAux] at h ⊢
    by_cases hcb : (decide (n.parentIdx = some par) &&
        decide (nameStr n.data.entry_name = part)) = true
    · rw [if_pos hcb] at h
      simp at h
    · rw [if_neg hcb] at h ⊢
      rw [ih (idx + 1) h]
      simp
      omega

/-- Unpack the Boolean segment well-formedness. -/
theorem goodSegB_spec (s : String) (h : goodSegB s = true) :
    s ≠ "" ∧ s ≠ "." ∧ s ≠ ".." ∧ s ≠ "None" := by
  unfold goodSegB at h
  simp only [Bool.and_eq_true, decide_eq_true_eq, ne_eq] at h
  exact ⟨h.1.1.1, h.1.1.2, h.1.2, h.2⟩

/-- On good parts the walk can only fail with `ChildResolverError`. -/
theorem resolveParts_good_total (t : RTree) :
    ∀ (parts : List String) (i : Nat),
      (∀ s ∈ parts, goodSegB s = true) →
      resolveParts t i parts = .error .childResolverError ∨
        ∃ j, resolveParts t i parts = .ok j := by
  intro parts
  induction parts with
  | nil => intro i _; exact Or.inr ⟨i, rfl⟩
  | cons s rest ih =>
    intro i h
    have hs := goodSegB_spec s (h s (List.mem_cons_self s rest))
    have hsk : ¬ ((decide (s = "") || decide (s = ".")) = true) := by
      simp [hs.1, hs.2.1]
    simp only [resolveParts, if_neg hs.2.2.1, if_neg hsk]
    cases hfc : findChild t i s with
    | none => exact Or.inl rfl
    | some k => exact ih k (fun x hx => h x (List.mem_cons_of_mem s hx))

/-- A successful walk is stable under appending a node to the arena. -/
theorem resolveParts_snoc (t : RTree) (x : TreeNode) :
    ∀ (parts : List String) (i j : Nat), resolveParts t i parts = .ok j →
      resolveParts ⟨t.nodes ++ [x]⟩ i parts = .ok j := by
  intro parts
  induction parts with
  | nil => intro i j h; exact h
  | cons s rest ih =>
    intro i j h
    simp only [resolveParts] at h ⊢
    by_cases hdd : s = ".."
    · rw [if_pos hdd] at h ⊢
      cases hpi : (t.nodes[i]?).bind (·.parentIdx) with
      | none => simp only [hpi] at h; cases h
      | some p =>
        simp only [hpi] at h
        cases hni : t.nodes[i]? with
        | none => rw [hni] at hpi; simp at hpi
        | some nd =>
          have hlt : i < t.nodes.length := by
            by_contra hge
            rw [List.getElem?_eq_none (by omega)] at hni
            cases hni
          have hni' : (t.nodes ++ [x])[i]? = some nd := by
            rw [List.getElem?_append_left hlt]
            exact hni
          have hpi' : (((⟨t.nodes ++ [x]⟩ : RTree).nodes[i]?).bind (·.parentIdx)) = some p := by
            show ((t.nodes ++ [x])[i]?).bind (·.parentIdx) = some p
            rw [hni']
            rw [hni] at hpi
            exact hpi
          simp only [hpi']
          exact ih p j h
    · rw [if_neg hdd] at h ⊢
      by_cases hsk : ((decide (s = "") || decide (s = ".")) = true)
      · rw [if_pos hsk] at h ⊢
        exact ih i j h
      · rw [if_neg hsk] at h ⊢
        cases hfc : findChild t i s with
        | none => simp only [hfc] at h; cases h
        | some k =>
          simp only [hfc] at h
          have hfc' : findChild (⟨t.nodes ++ [x]⟩ : RTree) i s = some k :=
            findChildAux_append_some i s x t.nodes 0 k hfc
          simp only [hfc']
          exact ih k j h

/-- The walk on good parts, with the join invariant and the fixed root,
lands on a node whose stored path is the join of the start node's path with
the walked parts. -/
theorem resolveParts_sound (t : RTree)
    (hroot : t.nodes[0]? = some ⟨none, rootNodeData⟩) (hjoin : JoinInv t) :
    ∀ (parts : List String) (i j : Nat) (ndi : TreeNode),
      (∀ s ∈ parts, goodSegB s = true) →
      t.nodes[i]? = some ndi →
      resolveParts t i parts = .ok j →
      ∃ ndj : TreeNode, t.nodes[j]? = some ndj ∧
        ndj.data.entry_path = joinSegs (ndi.data.entry_path :: parts) := by
  intro parts
  induction parts with
  | nil =>
    intro i j ndi _ hndi h
    have hij : i = j := by
      simp only [resolveParts] at h
      injection h
    subst hij
    exact ⟨ndi, hndi, rfl⟩
  | cons s rest ih =>
    intro i j ndi hgood hndi h
    have hs := goodSegB_spec s (hgood s (List.mem_cons_self s rest))
    have hsk : ¬ ((decide (s = "") || decide (s = ".")) = true) := by
      simp [hs.1, hs.2.1]
    simp only [resolveParts, if_neg hs.2.2.1, if_neg hsk] at h
    cases hfc : findChild t i s with
    | none => simp only [hfc] at h; cases h
    | some k =>
      simp only [hfc] at h
      rcases findChildAux_sound i s t.nodes 0 k hfc with ⟨k0, ndk, hk0, hkk, hpk, hnk⟩
      have hk : t.nodes[k]? = some ndk := by
        rw [hk0]
        simpa using hkk
      have hkne : k ≠ 0 := by
        intro h0
        rw [h0, hroot] at hk
        injection hk with he
        rw [← he] at hpk
        simp at hpk
      rcases hjoin k ndk hk hkne with ⟨par, nm, pd, hpar, hname, _, hpd, hpath⟩
      have hpari : par = i := by
        rw [hpar] at hpk
        injection hpk
      rw [hpari] at hpd
      rw [hndi] at hpd
      injection hpd with hpdi
      have hnm : nm = s := by
        rw [hname] at hnk
        exact hnk
      rcases ih k j ndk (fun x hx => hgood x (List.mem_cons_of_mem s hx)) hk h with
        ⟨ndj, hj, hpathj⟩
      refine ⟨ndj, hj, ?_⟩
      rw [hpathj, hpath, hpdi, hnm]
      exact (joinSegs_cons_cons _ _ _).symm

/-- `rootNodeData`'s stringified name is `"Document"`. -/
theorem rootNodeData_name : nameStr rootNodeData.entry_name = "Document" := by decide

/-- `rootNodeData`'s path is `"Document"`. -/
theorem rootNodeData_path : rootNodeData.entry_path = "Document" := by decide

/-- A successful lookup of a good `"Document"`-rooted path, under the join
invariant, returns a node whose stored path is the looked-up path. -/
theorem getNodeByPathT_sound (t : RTree)
    (hroot : t.nodes[0]? = some ⟨none, rootNodeData⟩) (hjoin : JoinInv t)
    (q : String) (rest : List String)
    (hsplit : pySplit q = "Document" :: rest)
    (hgood : ∀ s ∈ rest, goodSegB s = true)
    (j : Nat) (h : getNodeByPathT t q = .ok (some j)) :
    ∃ nd : TreeNode, t.nodes[j]? = some nd ∧ nd.data.entry_path = q := by
  unfold getNodeByPathT at h
  cases hres : resolverGet t q with
  | error e =>
    rw [hres] at h
    cases e <;> simp at h
  | ok j' =>
    rw [hres] at h
    have hjj : j' = j := by
      simp at h
      exact h
    subst hjj
    unfold resolverGet at hres
    simp only [hsplit] at hres
    have hne : ¬ ("Document" : String) = "" := by decide
    rw [if_neg hne] at hres
    have hdat : t.dataAt? 0 = some rootNodeData := by
      unfold RTree.dataAt?
      rw [hroot]
      rfl
    simp only [hdat] at hres
    rw [if_pos rootNodeData_name] at hres
    rcases resolveParts_sound t hroot hjoin rest 0 j' ⟨none, rootNodeData⟩ hgood hroot hres
      with ⟨ndj, hj, hpath⟩
    refine ⟨ndj, hj, ?_⟩
    rw [hpath]
    show joinSegs (rootNodeData.entry_path :: rest) = q
    rw [rootNodeData_path, ← hsplit, joinSegs_pySplit]

/-- A lookup of a good `"Document"`-rooted path never raises (it is `.ok`,
found or not-found), given the fixed root. -/
theorem getNodeByPathT_total (t : RTree)
    (hroot : t.nodes[0]? = some ⟨none, rootNodeData⟩)
    (q : String) (rest : List String)
    (hsplit : pySplit q = "Document" :: rest)
    (hgood : ∀ s ∈ rest, goodSegB s = true) :
    ∃ r, getNodeByPathT t q = .ok r := by
  unfold getNodeByPathT resolverGet
  simp only [hsplit]
  have hne : ¬ ("Document" : String) = "" := by decide
  rw [if_neg hne]
  have hdat : t.dataAt? 0 = some rootNodeData := by
    unfold RTree.dataAt?
    rw [hroot]
    rfl
  simp only [hdat]
  rw [if_pos rootNodeData_name]
  rcases resolveParts_good_total t rest 0 hgood with h | ⟨j, h⟩
  · rw [h]
    exact ⟨none, rfl⟩
  · rw [h]
    exact ⟨some j, rfl⟩

/-- A found lookup result survives appending a node to the arena. -/
theorem getNodeByPathT_snoc (t : RTree) (x : TreeNode) (q : String) (j : Nat)
    (h : getNodeByPathT t q = .ok (some j)) :
    getNodeByPathT (⟨t.nodes ++ [x]⟩ : RTree) q = .ok (some j) := by
  unfold getNodeByPathT at h ⊢
  cases hres : resolverGet t q with
  | error e =>
    rw [hres] at h
    cases e <;> simp at h
  | ok j' =>
    rw [hres] at h
    have hjj : j' = j := by
      simp at h
      exact h
    subst hjj
    unfold resolverGet at hres
    cases hsp : pySplit q with
    | nil => rw [hsp] at hres; cases hres
    | cons first rest =>
      simp only [hsp] at hres
      by_cases hfe : first = ""
      · rw [if_pos hfe] at hres; cases hres
      · rw [if_neg hfe] at hres
        cases hd0 : t.dataAt? 0 with
        | none => simp only [hd0] at hres; cases hres
        | some root =>
          simp only [hd0] at hres
          by_cases hnm : nameStr root.entry_name = first
          · rw [if_pos hnm] at hres
            have hn0 : ∃ nd0 : TreeNode, t.nodes[0]? = some nd0 ∧ nd0.data = root := by
              unfold RTree.dataAt? at hd0
              cases hg : t.nodes[0]? with
              | none => rw [hg] at hd0; cases hd0
              | some nd0 =>
                rw [hg] at hd0
                injection hd0 with hd0
                exact ⟨nd0, rfl, hd0⟩
            rcases hn0 with ⟨nd0, hg, hdata⟩
            have hlt : 0 < t.nodes.length := by
              by_contra hge
              rw [List.getElem?_eq_none (by omega)] at hg
              cases hg
            have hd0' : (⟨t.nodes ++ [x]⟩ : RTree).dataAt? 0 = some root := by
              unfold RTree.dataAt?
              show ((t.nodes ++ [x])[0]?).map (·.data) = some root
              rw [List.getElem?_append_left hlt, hg, ← hdata]
              rfl
            unfold resolverGet
            simp only [hsp]
            rw [if_neg hfe]
            simp only [hd0']
            rw [if_pos hnm]
            rw [resolveParts_snoc t x rest 0 j' hres]
          · rw [if_neg hnm] at hres; cases hres

/-- A folder node constructed from a record carries the record's path,
also when the date parse failed. -/
theorem mkFolderFromRecord_path (d : Record) :
    (mkFolderFromRecord d).1.entry_path = d.entry_path := by
  rcases hcd : todatetime d.created_date with e | c <;>
    simp [mkFolderFromRecord, DPFolderNode_init, DPNode_init, hcd]

/-- A folder node constructed from a record carries the record's name,
also when the date parse failed. -/
theorem mkFolderFromRecord_name (d : Record) :
    (mkFolderFromRecord d).1.entry_name = d.entry_name := by
  rcases hcd : todatetime d.created_date with e | c <;>
    simp [mkFolderFromRecord, DPFolderNode_init, DPNode_init, hcd]

/-- A document node constructed from a record carries the record's name,
also when a field parse failed. -/
theorem mkDocFromRecord_name (d : Record) :
    (mkDocFromRecord d).1.entry_name = d.entry_name := by
  rcases hcd : todatetime d.created_date with e | c
  · simp [mkDocFromRecord, DPDocumentNode_init, DPNode_init, hcd]
  · rcases hmd : todatetime d.modified_date with e | md
    · simp [mkDocFromRecord, DPDocumentNode_init, DPNode_init, hcd, hmd]
    · rcases e1 : pyIntField d.current_page with e | cp
      · simp [mkDocFromRecord, DPDocumentNode_init, DPNode_init, hcd, hmd, e1]
      · rcases e2 : pyIntField d.file_size with e | fs
        · simp [mkDocFromRecord, DPDocumentNode_init, DPNode_init, hcd, hmd, e1, e2]
        · rcases e3 : pyIntField d.total_page with e | tp <;>
            simp [mkDocFromRecord, DPDocumentNode_init, DPNode_init, hcd, hmd, e1, e2, e3]

/-- Unpack the Boolean record well-formedness into propositions. -/
theorem wfRecord_spec (seen : List String) (r : Record) (h : wfRecord seen r = true) :
    2 ≤ (pySplit r.entry_path).length ∧
    (pySplit r.entry_path).headD "" = "Document" ∧
    (∀ s ∈ pySplit r.entry_path, goodSegB s = true) ∧
    r.entry_name = some ((pySplit r.entry_path).getLastD "") ∧
    (r.entry_type = some "folder" ∨ r.entry_type = some "document") ∧
    (∀ q ∈ chainPaths ((pySplit r.entry_path).headD "")
        (((pySplit r.entry_path).drop 1).dropLast), q ∈ seen) ∧
    pyRsplitParent r.entry_path ∈ seen ∧
    r.entry_path ∉ seen := by
  unfold wfRecord at h
  simp only [Bool.and_eq_true, decide_eq_true_eq, List.all_eq_true,
    Bool.or_eq_true, Bool.not_eq_true'] at h
  obtain ⟨⟨⟨⟨⟨⟨⟨h1, h2⟩, h3⟩, h4⟩, h5⟩, h6⟩, h7⟩, h8⟩ := h
  refine ⟨h1, h2, h3, h4, h5, ?_, ?_, ?_⟩
  · intro q hq
    exact List.elem_iff.mp (h6 q hq)
  · exact List.elem_iff.mp h7
  · intro hmem
    have hc : seen.contains r.entry_path = true := List.elem_iff.mpr hmem
    rw [hc] at h8
    simp at h8

/-- A well-formed record path splits as `"Document"` followed by a
nonempty tail. -/
theorem segs_shape (p : String) (hlen : 2 ≤ (pySplit p).length)
    (hhead : (pySplit p).headD "" = "Document") :
    ∃ tail, pySplit p = "Document" :: tail ∧ tail ≠ [] := by
  cases hs : pySplit p with
  | nil => exact absurd hs (pySplit_ne_nil p)
  | cons a tail =>
    rw [hs] at hhead hlen
    simp only [List.headD_cons] at hhead
    subst hhead
    refine ⟨tail, rfl, ?_⟩
    intro ht
    rw [ht] at hlen
    simp at hlen

/-- `getLastD` of a nonempty list is its last element. -/
theorem getLastD_eq_getLast {α : Type} (l : List α) (d : α) (h : l ≠ []) :
    l.getLastD d = l.getLast h := by
  rw [List.getLastD_eq_getLast?, List.getLast?_eq_getLast l h]
  rfl

/-- `getLastD` of a nonempty list is a member. -/
theorem getLastD_mem {α : Type} (l : List α) (d : α) (h : l ≠ []) :
    l.getLastD d ∈ l := by
  rw [getLastD_eq_getLast l d h]
  exact List.getLast_mem h

/-- When every `curpath` of the chain resolves, `_create_path` does
nothing. -/
theorem createPathLoop_all_found (t : RTree) :
    ∀ (ds : List String) (lp : String),
      (∀ cp ∈ chainPaths lp ds, ∃ j, getNodeByPathT t cp = .ok (some j)) →
      createPathLoop t lp ds = (t, none) := by
  intro ds
  induction ds with
  | nil => intro lp _; rfl
  | cons d rest ih =>
    intro lp hres
    rcases hres (lp ++ "/" ++ d) (List.mem_cons_self _ _) with ⟨j, hj⟩
    unfold createPathLoop
    simp only [hj]
    exact ih (lp ++ "/" ++ d) (fun cp hcp => hres cp (List.mem_cons_of_mem _ hcp))

/-- Extract the underlying part walk from a found lookup. -/
theorem getNodeByPathT_ok_some_elim (t : RTree)
    (hroot : t.nodes[0]? = some ⟨none, rootNodeData⟩) (q : String)
    (first : String) (rest : List String) (hsplit : pySplit q = first :: rest)
    (j : Nat) (h : getNodeByPathT t q = .ok (some j)) :
    resolveParts t 0 rest = .ok j := by
  unfold getNodeByPathT at h
  cases hres : resolverGet t q with
  | error e =>
    rw [hres] at h
    cases e <;> simp at h
  | ok j' =>
    rw [hres] at h
    have hjj : j' = j := by
      simp at h
      exact h
    subst hjj
    unfold resolverGet at hres
    simp only [hsplit] at hres
    by_cases hfe : first = ""
    · rw [if_pos hfe] at hres; cases hres
    · rw [if_neg hfe] at hres
      have hdat : t.dataAt? 0 = some rootNodeData := by
        unfold RTree.dataAt?
        rw [hroot]
        rfl
      simp only [hdat] at hres
      by_cases hnm : nameStr rootNodeData.entry_name = first
      · rw [if_pos hnm] at hres
        exact hres
      · rw [if_neg hnm] at hres; cases hres

/-- An index holding a value is in range. -/
theorem getElem?_some_lt {α : Type} (l : List α) (i : Nat) (a : α)
    (h : l[i]? = some a) : i < l.length := by
  by_contra hge
  rw [List.getElem?_eq_none (by omega)] at h
  cases h

/-- Entries survive appending an element. -/
theorem getElem?_append_some {α : Type} (l : List α) (x : α) (i : Nat) (a : α)
    (h : l[i]? = some a) : (l ++ [x])[i]? = some a := by
  rw [List.getElem?_append_left (getElem?_some_lt l i a h)]
  exact h

/-- The `".."` step of the walk. -/
theorem resolveParts_cons_dotdot (t : RTree) (i : Nat) (rest : List String) :
    resolveParts t i (".." :: rest) =
      match (t.nodes[i]?).bind (·.parentIdx) with
      | none => .error .rootResolverError
      | some p => resolveParts t p rest := by
  simp only [resolveParts]
  simp

/-- The skip step of the walk (`""` and `"."` parts). -/
theorem resolveParts_cons_skip (t : RTree) (i : Nat) (s : String)
    (rest : List String) (hdd : ¬ s = "..")
    (hsk : (decide (s = "") || decide (s = ".")) = true) :
    resolveParts t i (s :: rest) = resolveParts t i rest := by
  simp only [resolveParts]
  rw [if_neg hdd, if_pos hsk]

/-- The child step of the walk. -/
theorem resolveParts_cons_seg (t : RTree) (i : Nat) (s : String)
    (rest : List String) (hdd : ¬ s = "..")
    (hsk : ¬ ((decide (s = "") || decide (s = ".")) = true)) :
    resolveParts t i (s :: rest) =
      match findChild t i s with
      | none => .error .childResolverError
      | some j => resolveParts t j rest := by
  simp only [resolveParts]
  rw [if_neg hdd, if_neg hsk]

/-- The walk splits over list append. -/
theorem resolveParts_append (t : RTree) :
    ∀ (xs ys : List String) (i : Nat),
      resolveParts t i (xs ++ ys) =
        match resolveParts t i xs with
        | .ok j => resolveParts t j ys
        | .error e => .error e := by
  intro xs
  induction xs with
  | nil => intro ys i; rfl
  | cons s rest ih =>
    intro ys i
    rw [List.cons_append]
    by_cases hdd : s = ".."
    · subst hdd
      rw [resolveParts_cons_dotdot, resolveParts_cons_dotdot]
      cases hpi : (t.nodes[i]?).bind (·.parentIdx) with
      | none => rfl
      | some p =>
        simp only [hpi]
        exact ih ys p
    · by_cases hsk : ((decide (s = "") || decide (s = ".")) = true)
      · rw [resolveParts_cons_skip t i s (rest ++ ys) hdd hsk,
          resolveParts_cons_skip t i s rest hdd hsk]
        exact ih ys i
      · rw [resolveParts_cons_seg t i s (rest ++ ys) hdd hsk,
          resolveParts_cons_seg t i s rest hdd hsk]
        cases hfc : findChild t i s with
        | none => rfl
        | some k =>
          simp only [hfc]
          exact ih ys k

/-- Attaching a well-formed fresh node under its resolved parent preserves
the rebuild invariant, with the new path recorded as seen. -/
theorem WfInv_addNode (t : RTree) (seen : List String) (hinv : WfInv t seen)
    (r : Record) (nd : DPNode) (ip : Nat) (ndp : TreeNode) (tail : List String)
    (hsplit : pySplit r.entry_path = "Document" :: tail) (htne : tail ≠ [])
    (hgood : ∀ s ∈ pySplit r.entry_path, goodSegB s = true)
    (hfresh : r.entry_path ∉ seen)
    (hndp : t.nodes[ip]? = some ndp)
    (hip : getNodeByPathT t (pyRsplitParent r.entry_path) = .ok (some ip))
    (hppath : ndp.data.entry_path = pyRsplitParent r.entry_path)
    (hndpath : nd.entry_path = r.entry_path)
    (hndname : nd.entry_name = some ((pySplit r.entry_path).getLastD "")) :
    WfInv (t.addNode (some ip) nd) (r.entry_path :: seen) := by
  have hsegsne : pySplit r.entry_path ≠ [] := pySplit_ne_nil r.entry_path
  have hlen2 : 2 ≤ (pySplit r.entry_path).length := by
    rw [hsplit]
    cases tail with
    | nil => exact absurd rfl htne
    | cons a b => simp
  have hLSgood : goodSegB ((pySplit r.entry_path).getLastD "") = true :=
    hgood _ (getLastD_mem _ "" hsegsne)
  have hLSspec := goodSegB_spec _ hLSgood
  have hdlne : (pySplit r.entry_path).dropLast ≠ [] := by
    have hl := List.length_dropLast (pySplit r.entry_path)
    intro hcon
    rw [hcon] at hl
    simp at hl
    omega
  have hrecon : (pySplit r.entry_path).dropLast ++
      [(pySplit r.entry_path).getLastD ""] = pySplit r.entry_path := by
    rw [getLastD_eq_getLast _ "" hsegsne]
    exact List.dropLast_append_getLast hsegsne
  have hpp : pyRsplitParent r.entry_path = joinSegs ((pySplit r.entry_path).dropLast) :=
    pyRsplitParent_segs r.entry_path hlen2
  have hjoin3 : r.entry_path =
      pyRsplitParent r.entry_path ++ "/" ++ (pySplit r.entry_path).getLastD "" := by
    conv_lhs => rw [← joinSegs_pySplit r.entry_path, ← hrecon]
    rw [joinSegs_append_singleton _ _ hdlne, hpp]
  have hppsplit : pySplit (pyRsplitParent r.entry_path) =
      (pySplit r.entry_path).dropLast := by
    rw [hpp]
    exact pySplit_joinSegs _
      (fun g hg => pySplit_no_slash r.entry_path g (List.mem_of_mem_dropLast hg))
      hdlne
  have hdl_shape : (pySplit r.entry_path).dropLast = "Document" :: tail.dropLast := by
    rw [hsplit]
    cases tail with
    | nil => exact absurd rfl htne
    | cons a b => rfl
  have hLS_tail : (pySplit r.entry_path).getLastD "" = tail.getLast htne := by
    cases tail with
    | nil => exact absurd rfl htne
    | cons t0 trest =>
      rw [List.getLastD_eq_getLast?, hsplit, List.getLast?_cons_cons,
        List.getLast?_eq_getLast _ (by simp)]
      rfl
  have htail_recon : tail.dropLast ++ [(pySplit r.entry_path).getLastD ""] = tail := by
    rw [hLS_tail]
    exact List.dropLast_append_getLast htne
  have hwalkP : resolveParts t 0 tail.dropLast = .ok ip := by
    refine getNodeByPathT_ok_some_elim t hinv.root (pyRsplitParent r.entry_path)
      "Document" tail.dropLast ?_ ip hip
    rw [hppsplit, hdl_shape]
  have hN0 : 0 < t.nodes.length := getElem?_some_lt _ _ _ hinv.root
  have hipN : ip < t.nodes.length := getElem?_some_lt _ _ _ hndp
  have hxparent : (⟨some ip, nd⟩ : TreeNode).parentIdx = some ip := rfl
  have hxname : nameStr (⟨some ip, nd⟩ : TreeNode).data.entry_name =
      (pySplit r.entry_path).getLastD "" := by
    show nameStr nd.entry_name = _
    rw [hndname]
    rfl
  -- no existing child of the parent carries the new node's name
  have hfind_old : findChild t ip ((pySplit r.entry_path).getLastD "") = none := by
    cases hfo : findChild t ip ((pySplit r.entry_path).getLastD "") with
    | none => rfl
    | some k =>
      exfalso
      rcases findChildAux_sound ip _ t.nodes 0 k hfo with ⟨k0, ndk, hk0, hkk, hpk, hnk⟩
      have hk : t.nodes[k]? = some ndk := by
        rw [hk0]
        simpa using hkk
      have hkne : k ≠ 0 := by
        intro h0
        rw [h0, hinv.root] at hk
        injection hk with he
        rw [← he] at hpk
        simp at hpk
      rcases hinv.join k ndk hk hkne with ⟨par, nm, pd, hpar, hname, _, hpd, hpath⟩
      have hpari : par = ip := by
        rw [hpar] at hpk
        injection hpk
      rw [hpari] at hpd
      rw [hndp] at hpd
      injection hpd with hpdi
      have hnm : nm = (pySplit r.entry_path).getLastD "" := by
        rw [hname] at hnk
        exact hnk
      have hkpath : ndk.data.entry_path = r.entry_path := by
        rw [hpath, ← hpdi, hnm, hppath, ← hjoin3]
      exact hfresh (hkpath ▸ hinv.seen_paths k ndk hk)
  -- the new tree resolves the new path to the new node
  have hfind_new : findChild (t.addNode (some ip) nd) ip
      ((pySplit r.entry_path).getLastD "") = some t.nodes.length := by
    have h := findChildAux_append_none ip _ ⟨some ip, nd⟩ ⟨hxparent, hxname⟩
      t.nodes 0 hfind_old
    simpa using h
  have hresolve_new : getNodeByPathT (t.addNode (some ip) nd) r.entry_path =
      .ok (some t.nodes.length) := by
    unfold getNodeByPathT resolverGet
    simp only [hsplit]
    have hne : ¬ ("Document" : String) = "" := by decide
    rw [if_neg hne]
    have hdat : (t.addNode (some ip) nd).dataAt? 0 = some rootNodeData := by
      unfold RTree.dataAt? RTree.addNode
      show ((t.nodes ++ [⟨some ip, nd⟩])[0]?).map (·.data) = some rootNodeData
      rw [getElem?_append_some _ _ _ _ hinv.root]
      rfl
    simp only [hdat]
    rw [if_pos rootNodeData_name]
    have hw : resolveParts (t.addNode (some ip) nd) 0 tail = .ok t.nodes.length := by
      rw [← htail_recon, resolveParts_append]
      have hw1 : resolveParts (t.addNode (some ip) nd) 0 tail.dropLast = .ok ip :=
        resolveParts_snoc t ⟨some ip, nd⟩ tail.dropLast 0 ip hwalkP
      simp only [hw1]
      simp only [resolveParts, if_neg hLSspec.2.2.1]
      have hsk : ¬ ((decide ((pySplit r.entry_path).getLastD "" = "") ||
          decide ((pySplit r.entry_path).getLastD "" = ".")) = true) := by
        rw [decide_eq_false hLSspec.1, decide_eq_false hLSspec.2.1]
        simp
      rw [if_neg hsk]
      simp only [hfind_new]
    rw [hw]
  refine ⟨?_, ?_, ?_, ?_⟩
  · show (t.nodes ++ [⟨some ip, nd⟩])[0]? = some ⟨none, rootNodeData⟩
    exact getElem?_append_some _ _ _ _ hinv.root
  · intro i ndi hi hine
    rcases Nat.lt_trichotomy i t.nodes.length with hlt | heq | hgt
    · have hi' : t.nodes[i]? = some ndi := by
        have := hi
        rw [show (t.addNode (some ip) nd).nodes = t.nodes ++ [⟨some ip, nd⟩] from rfl] at this
        rw [List.getElem?_append_left hlt] at this
        exact this
      rcases hinv.join i ndi hi' hine with ⟨par, nm, pd, hpar, hname, hgm, hpd, hpath⟩
      exact ⟨par, nm, pd, hpar, hname, hgm, getElem?_append_some _ _ _ _ hpd, hpath⟩
    · subst heq
      have hx : (t.addNode (some ip) nd).nodes[t.nodes.length]? =
          some ⟨some ip, nd⟩ := by
        show (t.nodes ++ [⟨some ip, nd⟩])[t.nodes.length]? = some _
        exact List.getElem?_concat_length t.nodes _
      rw [hx] at hi
      injection hi with hi
      refine ⟨ip, (pySplit r.entry_path).getLastD "", ndp, ?_, ?_, hLSgood,
        getElem?_append_some _ _ _ _ hndp, ?_⟩
      · rw [← hi]
      · rw [← hi]
        exact hndname
      · rw [← hi]
        show nd.entry_path = ndp.data.entry_path ++ "/" ++ _
        rw [hndpath, hppath, ← hjoin3]
    · exfalso
      have : (t.addNode (some ip) nd).nodes[i]? = none := by
        show (t.nodes ++ [⟨some ip, nd⟩])[i]? = none
        rw [List.getElem?_eq_none]
        simp
        omega
      rw [this] at hi
      cases hi
  · intro i ndi hi
    rcases Nat.lt_trichotomy i t.nodes.length with hlt | heq | hgt
    · have hi' : t.nodes[i]? = some ndi := by
        have := hi
        rw [show (t.addNode (some ip) nd).nodes = t.nodes ++ [⟨some ip, nd⟩] from rfl] at this
        rw [List.getElem?_append_left hlt] at this
        exact this
      exact List.mem_cons_of_mem _ (hinv.seen_paths i ndi hi')
    · subst heq
      have hx : (t.addNode (some ip) nd).nodes[t.nodes.length]? =
          some ⟨some ip, nd⟩ := by
        show (t.nodes ++ [⟨some ip, nd⟩])[t.nodes.length]? = some _
        exact List.getElem?_concat_length t.nodes _
      rw [hx] at hi
      injection hi with hi
      rw [← hi]
      show nd.entry_path ∈ _
      rw [hndpath]
      exact List.mem_cons_self _ _
    · exfalso
      have : (t.addNode (some ip) nd).nodes[i]? = none := by
        show (t.nodes ++ [⟨some ip, nd⟩])[i]? = none
        rw [List.getElem?_eq_none]
        simp
        omega
      rw [this] at hi
      cases hi
  · intro q hq
    rcases List.mem_cons.mp hq with hq | hq
    · subst hq
      refine ⟨t.nodes.length, ⟨some ip, nd⟩, hresolve_new, ?_, hndpath⟩
      show (t.nodes ++ [⟨some ip, nd⟩])[t.nodes.length]? = some _
      exact List.getElem?_concat_length t.nodes _
    · rcases hinv.resolves q hq with ⟨j, ndq, hjq, hjn, hjp⟩
      refine ⟨j, ndq, ?_, getElem?_append_some _ _ _ _ hjn, hjp⟩
      exact getNodeByPathT_snoc t ⟨some ip, nd⟩ q j hjq

/-- Processing one well-formed record preserves the invariant, recording
the record's path. -/
theorem processRecord_wf_step (t : RTree) (seen : List String) (r : Record)
    (hinv : WfInv t seen) (hwf : wfRecord seen r = true) :
    WfInv (processRecord t r).1 (r.entry_path :: seen) := by
  obtain ⟨hlen, hhead, hgood, hname, htype, hchain, hpar, hfresh⟩ :=
    wfRecord_spec seen r hwf
  obtain ⟨tail, hsplit, htne⟩ := segs_shape r.entry_path hlen hhead
  have hcp : create_path t r.entry_path = (t, none) := by
    unfold create_path
    apply createPathLoop_all_found
    intro cp hcp
    rcases hinv.resolves cp (hchain cp hcp) with ⟨j, nd0, hj, _, _⟩
    exact ⟨j, hj⟩
  have hpr : processRecord t r = create_update_node t r := by
    unfold processRecord
    simp only [hcp]
  rw [hpr]
  rcases hinv.resolves (pyRsplitParent r.entry_path) hpar with ⟨ip, ndp, hip, hndp, hppath⟩
  have hgood_tail : ∀ s ∈ tail, goodSegB s = true := fun s hs =>
    hgood s (by rw [hsplit]; exact List.mem_cons_of_mem _ hs)
  rcases htype with hfold | hdoc
  · have hlook : getNodeByPathT t r.entry_path = .ok none := by
      rcases getNodeByPathT_total t hinv.root r.entry_path tail hsplit hgood_tail with
        ⟨res, hres⟩
      cases res with
      | none => exact hres
      | some j =>
        exfalso
        rcases getNodeByPathT_sound t hinv.root hinv.join r.entry_path tail hsplit
          hgood_tail j hres with ⟨ndj, hjn, hjp⟩
        exact hfresh (hjp ▸ hinv.seen_paths j ndj hjn)
    unfold create_update_node
    simp only [hip]
    rw [if_pos hfold]
    simp only [hlook]
    exact WfInv_addNode t seen hinv r (mkFolderFromRecord r).1 ip ndp tail hsplit htne
      hgood hfresh hndp hip hppath (mkFolderFromRecord_path r)
      (by rw [mkFolderFromRecord_name r, hname])
  · unfold create_update_node
    simp only [hip]
    have hnf : ¬ (r.entry_type = some "folder") := by rw [hdoc]; simp
    rw [if_neg hnf, if_pos hdoc]
    exact WfInv_addNode t seen hinv r (mkDocFromRecord r).1 ip ndp tail hsplit htne
      hgood hfresh hndp hip hppath (mkDocFromRecord_path r)
      (by rw [mkDocFromRecord_name r, hname])

/-- The invariant carries through the rebuild loop, also when a record
raised partway. -/
theorem processRecords_wfInv : ∀ (rs : List Record) (seen : List String) (t : RTree),
    WfInv t seen → wfRecords seen rs = true →
    ∃ seen', WfInv (processRecords t rs).1 seen' := by
  intro rs
  induction rs with
  | nil => intro seen t hinv _; exact ⟨seen, hinv⟩
  | cons r ds ih =>
    intro seen t hinv hwf
    unfold wfRecords at hwf
    rw [Bool.and_eq_true] at hwf
    have hstep := processRecord_wf_step t seen r hinv hwf.1
    cases hpr : processRecord t r with
    | mk t' e =>
      rw [hpr] at hstep
      cases e with
      | some e =>
        rw [processRecords_cons_err t r ds t' e hpr]
        exact ⟨r.entry_path :: seen, hstep⟩
      | none =>
        rw [processRecords_cons_ok t r ds t' hpr]
        exact ih (r.entry_path :: seen) t' hstep hwf.2

/-- The fresh root tree satisfies the invariant with only the root path
seen. -/
theorem create_tree_root_wfInv : WfInv create_tree_root ["Document"] := by
  refine ⟨rfl, ?_, ?_, ?_⟩
  · intro j nd hj hjne
    cases j with
    | zero => exact absurd rfl hjne
    | succ n => simp [create_tree_root] at hj
  · intro j nd hj
    cases j with
    | zero =>
      have hnd : nd = ⟨none, rootNodeData⟩ := by
        have : create_tree_root.nodes[0]? = some ⟨none, rootNodeData⟩ := rfl
        rw [this] at hj
        injection hj with h
        exact h.symm
      rw [hnd]
      show rootNodeData.entry_path ∈ _
      rw [rootNodeData_path]
      exact List.mem_cons_self _ _
    | succ n => simp [create_tree_root] at hj
  · intro q hq
    have hqd : q = "Document" := by simpa using hq
    subst hqd
    refine ⟨0, ⟨none, rootNodeData⟩, by decide, rfl, rootNodeData_path⟩

/-- Claim C6 amended: the parent-join invariant — every non-root node's
`entry_path` is its parent's `entry_path` joined with the node's own
`entry_name` by `"/"` — fails for synthesized placeholders (absent name,
deeper ones even detached), but holds for every node of the rebuilt tree
whenever the collection is well formed: each record a folder or document
whose path extends `"Document"` with good segments, whose name is its last
path segment, listed after explicit records for all its ancestor folders,
with no duplicate paths. -/
theorem C6_amended (rs : List Record) (h : wfRecords ["Document"] rs = true)
    (i : Nat) (hi : i ≠ 0) (hin : i < (rebuild_tree rs).1.nodes.length) :
    pathJoinOKb (rebuild_tree rs).1 i = true := by
  rcases processRecords_wfInv rs ["Document"] create_tree_root
    create_tree_root_wfInv h with ⟨seen', hinv⟩
  have hnd : ∃ nd, (rebuild_tree rs).1.nodes[i]? = some nd :=
    ⟨(rebuild_tree rs).1.nodes[i], List.getElem?_eq_getElem hin⟩
  rcases hnd with ⟨nd, hnd⟩
  have hj := hinv.join i nd hnd hi
  rcases hj with ⟨par, nm, pd, hpar, hname, _, hpd, hpath⟩
  unfold pathJoinOKb
  simp only [hnd, hpar, hname]
  have hdat : (rebuild_tree rs).1.dataAt? par = some pd.data := by
    unfold RTree.dataAt?
    show ((processRecords create_tree_root rs).1.nodes[par]?).map (·.data) = some pd.data
    rw [hpd]
    rfl
  simp only [hdat]
  exact decide_eq_true hpath

/-- Witness for C6: a well-formed two-record collection (explicit folder,
then a document inside it) driven through the amended theorem. -/
theorem C6_amended_witness :
    pathJoinOKb (rebuild_tree [recFolderA, recDocA]).1 1 = true ∧
    pathJoinOKb (rebuild_tree [recFolderA, recDocA]).1 2 = true :=
  ⟨C6_amended [recFolderA, recDocA] (by decide) 1 (by decide) (by decide),
    C6_amended [recFolderA, recDocA] (by decide) 2 (by decide) (by decide)⟩

/-- Claim C10 counterexample: after rebuilding with the empty collection,
a lookup whose first segment is not `"Document"` does not return not-found
— the resolver's root check raises an uncaught `ResolverError`. -/
theorem C10_counterexample :
    rebuild (none : RemoteTree) [] = (some create_tree_root, none) ∧
    get_node_by_path (rebuild (none : RemoteTree) []).1 "Foo" =
      .error .resolverError := by
  decide
